import Mathlib

/-!
Shallow embedding of the cart / checkout / order flow of the multi-vendor
e-commerce backend (Django apps `products`, `cart`, `orders`, `accounts`),
together with proofs about stock handling, order totals, status transitions,
cart clamping, default-address uniqueness and the admin status update.

Conventions: Decimal money amounts are embedded as exact rationals (Python's
`Decimal` arithmetic on these values is exact).  `stock`, `sales_count` and
quantities are Python ints, embedded as `Int`; the non-negativity the schema's
`PositiveIntegerField` asks for is proved, not assumed.  Each database-writing
view becomes a function from an explicit state to (new state, response); an
error response leaves the state unchanged, mirroring the early returns /
`transaction.atomic` rollback of the source.
-/

namespace ECom

/-- Status values shared by `Order.STATUS_CHOICES` and `OrderItem.STATUS_CHOICES`
(orders/models.py). -/
inductive OrderStatus
  | pending
  | processing
  | shipped
  | delivered
  | cancelled
  deriving Repr, DecidableEq

/-- Product row (products/models.py, class `Product`): the fields the
cart/order flow reads and writes.  `vendorApproved` embeds
`product.vendor.is_approved` (vendors/models.py). -/
structure Product where
  pid : Nat
  name : String
  price : ℚ
  stock : Int
  salesCount : Int
  isActive : Bool
  vendorApproved : Bool
  deriving Repr, DecidableEq

/-- products/models.py, `Product.update_stock`: subtract the quantity from the
stock, clamp a negative result to zero, and add the quantity to `sales_count`. -/
def Product.updateStock (p : Product) (quantity : Int) : Product :=
  let s := p.stock - quantity
  { p with stock := if s < 0 then 0 else s, salesCount := p.salesCount + quantity }

/-- Cart line (cart/models.py, class `CartItem`); at most one line per product
in a cart (`unique_together = ['cart', 'product']`). -/
structure CartItem where
  productId : Nat
  quantity : Int
  deriving Repr, DecidableEq

/-- cart/models.py, `CartItem.save`: a quantity below 1 is raised to 1, then a
quantity above the product's stock is lowered to the stock value. -/
def saveQuantity (quantity stock : Int) : Int :=
  let q := if quantity < 1 then 1 else quantity
  if q > stock then stock else q

/-- Order line (orders/models.py, class `OrderItem`): snapshot of the product
at purchase time plus an item-level status. -/
structure OrderItem where
  productId : Option Nat
  productName : String
  productPrice : ℚ
  quantity : Int
  subtotal : ℚ
  status : OrderStatus
  deriving Repr, DecidableEq

/-- Order header (orders/models.py, class `Order`): status, lines, the four
monetary totals, and (representative of the denormalized shipping fields) the
shipping full name. -/
structure Order where
  orderNumber : Nat
  status : OrderStatus
  items : List OrderItem
  subtotal : ℚ
  shippingCost : ℚ
  tax : ℚ
  total : ℚ
  shippingFullName : String
  deriving Repr, DecidableEq

/-- orders/models.py, `Order.calculate_totals`: subtotal is the sum of the
items' subtotals, tax is `subtotal * Decimal('0.10')`, shipping is 5.00 when
the subtotal is strictly below 50.00 and 0.00 otherwise, and the total is the
sum of the three. -/
def Order.calculateTotals (o : Order) : Order :=
  let sub := (o.items.map OrderItem.subtotal).sum
  let tx := sub * ((10 : ℚ) / 100)
  let ship : ℚ := if sub < 50 then 5 else 0
  { o with subtotal := sub, tax := tx, shippingCost := ship,
           total := sub + tx + ship }

/-- The slice of database state the flow touches, seen from one customer:
the product table, that customer's cart lines, the order table, and the
customer's saved addresses (id paired with the stored full name). -/
structure State where
  products : List Product
  cart : List CartItem
  orders : List Order
  addresses : List (Nat × String)
  deriving Repr, DecidableEq

/-- `Product.objects.get(pk=pid)` over the embedded product table. -/
def findProduct : List Product → Nat → Option Product
  | [], _ => none
  | p :: ps, pid => if p.pid = pid then some p else findProduct ps pid

/-- `CartItem.objects.get(cart=cart, product=product)` over the cart lines. -/
def findCartItem : List CartItem → Nat → Option CartItem
  | [], _ => none
  | it :: its, pid => if it.productId = pid then some it else findCartItem its pid

/-- `Order.objects.get(order_number=n)` over the embedded order table. -/
def findOrder : List Order → Nat → Option Order
  | [], _ => none
  | o :: os, n => if o.orderNumber = n then some o else findOrder os n

/-- `Address.objects.get(pk=aid, user=request.user)` over the saved addresses. -/
def findAddress : List (Nat × String) → Nat → Option String
  | [], _ => none
  | a :: rest, aid => if a.1 = aid then some a.2 else findAddress rest aid

/-- Persisting an UPDATE of the product row with the given id. -/
def mapProduct (ps : List Product) (pid : Nat) (f : Product → Product) : List Product :=
  ps.map fun p => if p.pid = pid then f p else p

/-- Persisting an UPDATE of the cart line for the given product. -/
def mapCartItem (cart : List CartItem) (pid : Nat) (f : CartItem → CartItem) : List CartItem :=
  cart.map fun it => if it.productId = pid then f it else it

/-- Error responses of the cart endpoints (cart/views.py, cart/serializers.py);
stock errors carry the available quantity reported in the message. -/
inductive CartError
  | invalidQuantity
  | productNotFound
  | productNotAvailable
  | vendorNotApproved
  | stockInsufficient (available : Int)
  | combinedExceedsStock (available : Int) (inCart : Int)
  | itemNotFound
  deriving Repr, DecidableEq

/-- cart/views.py, `AddToCartView.post`, including the validation done by
`AddToCartSerializer` (quantity ≥ 1, product exists, is active, vendor
approved, requested quantity ≤ stock) before the view merges the request into
an existing line or creates a new one via `CartItem.save`. -/
def addToCart (s : State) (productId : Nat) (quantity : Int) :
    State × Except CartError Unit :=
  if quantity < 1 then (s, .error .invalidQuantity) else
  match findProduct s.products productId with
  | none => (s, .error .productNotFound)
  | some p =>
    if p.isActive = false then (s, .error .productNotAvailable)
    else if p.vendorApproved = false then (s, .error .vendorNotApproved)
    else if p.stock < quantity then (s, .error (.stockInsufficient p.stock))
    else
      match findCartItem s.cart productId with
      | some item =>
        let newQuantity := item.quantity + quantity
        if p.stock < newQuantity then
          (s, .error (.combinedExceedsStock p.stock item.quantity))
        else
          ({ s with cart := mapCartItem s.cart productId fun it =>
              { it with quantity := saveQuantity newQuantity p.stock } }, .ok ())
      | none =>
        ({ s with cart := s.cart ++ [⟨productId, saveQuantity quantity p.stock⟩] },
         .ok ())

/-- cart/views.py, `UpdateCartItemView.patch` with `UpdateCartItemSerializer`
(quantity ≥ 1): set a cart line's quantity after checking it against stock. -/
def updateCartItem (s : State) (productId : Nat) (quantity : Int) :
    State × Except CartError Unit :=
  if quantity < 1 then (s, .error .invalidQuantity) else
  match findCartItem s.cart productId with
  | none => (s, .error .itemNotFound)
  | some _ =>
    match findProduct s.products productId with
    | none => (s, .error .productNotFound)
    | some p =>
      if p.stock < quantity then (s, .error (.stockInsufficient p.stock))
      else ({ s with cart := mapCartItem s.cart productId fun it =>
          { it with quantity := saveQuantity quantity p.stock } }, .ok ())

/-- The collected warning messages of `MergeCartView.post` (cart/views.py),
one per skipped guest line. -/
inductive MergeWarning
  | notFound (productId : Nat)
  | unavailable (name : String)
  | outOfStock (name : String)
  deriving Repr, DecidableEq

/-- One iteration of the loop in cart/views.py, `MergeCartView.post`: skip
missing, inactive/unapproved, and out-of-stock products with a warning each;
otherwise merge the line with the quantity clamped by available stock. -/
def mergeLine (acc : State × Nat × List MergeWarning) (line : CartItem) :
    State × Nat × List MergeWarning :=
  let (s, count, warns) := acc
  match findProduct s.products line.productId with
  | none => (s, count, warns ++ [.notFound line.productId])
  | some p =>
    if p.isActive = false ∨ p.vendorApproved = false then
      (s, count, warns ++ [.unavailable p.name])
    else
      let q := min line.quantity p.stock
      if q ≤ 0 then (s, count, warns ++ [.outOfStock p.name])
      else
        match findCartItem s.cart line.productId with
        | some item =>
          ({ s with cart := mapCartItem s.cart line.productId fun it =>
              { it with quantity :=
                  saveQuantity (min (item.quantity + q) p.stock) p.stock } },
           count + 1, warns)
        | none =>
          ({ s with cart := s.cart ++ [⟨line.productId, saveQuantity q p.stock⟩] },
           count + 1, warns)

/-- cart/views.py, `MergeCartView.post`: fold `mergeLine` over the guest lines,
returning the merged-line count and the warning list alongside the new state. -/
def mergeCart (s : State) (items : List CartItem) : State × Nat × List MergeWarning :=
  items.foldl mergeLine (s, 0, [])

/-- Error responses of `CheckoutView.post` (orders/views.py). -/
inductive CheckoutError
  | emptyCart
  | stockError (productName : String) (available : Int)
  | addressNotFound
  deriving Repr, DecidableEq

/-- The stock-validation loop of orders/views.py, `CheckoutView.post`: the
first cart line whose product has stock below the requested quantity, with the
payload (`product.name`, `product.stock`) of the error message. -/
def stockViolation : List Product → List CartItem → Option (String × Int)
  | _, [] => none
  | ps, it :: rest =>
    match findProduct ps it.productId with
    | some p => if p.stock < it.quantity then some (p.name, p.stock)
                else stockViolation ps rest
    | none => stockViolation ps rest

/-- The `OrderItem.objects.create(...)` snapshot taken by both checkout views:
name, price and id of the product, the requested quantity, and a subtotal of
price times quantity (cart/models.py `CartItem.subtotal`, and the guest view's
`product.price * item['quantity']`). -/
def mkOrderItem (p : Product) (quantity : Int) : OrderItem :=
  { productId := some p.pid, productName := p.name, productPrice := p.price,
    quantity := quantity, subtotal := p.price * (quantity : ℚ),
    status := .pending }

/-- The per-line `product.update_stock(quantity)` calls of both checkout views. -/
def checkoutProducts (ps : List Product) (lines : List CartItem) : List Product :=
  lines.foldl (fun acc it => mapProduct acc it.productId (Product.updateStock · it.quantity)) ps

/-- The order lines both checkout views create, one per requested line. -/
def checkoutItems (ps : List Product) (lines : List CartItem) : List OrderItem :=
  lines.filterMap fun it => (findProduct ps it.productId).map fun p => mkOrderItem p it.quantity

/-- The shipping-address resolution of `CheckoutView.post`: inline fields when
no address id is supplied, otherwise the saved address (absent id is an error). -/
def resolveShipping (addresses : List (Nat × String)) (addressId : Option Nat)
    (inlineName : String) : Option String :=
  match addressId with
  | none => some inlineName
  | some aid => findAddress addresses aid

/-- orders/views.py, `CheckoutView.post` (authenticated checkout): reject an
empty cart, validate stock on every line, resolve the shipping name from a
saved address or the inline payload, then create the order with its item
snapshots, decrement stock, compute totals and clear the cart — all inside one
transaction, so every error path leaves the state untouched. -/
def checkout (s : State) (addressId : Option Nat) (orderNumber : Nat)
    (inlineName : String) : State × Except CheckoutError Order :=
  if s.cart.isEmpty then (s, .error .emptyCart) else
  match stockViolation s.products s.cart with
  | some v => (s, .error (.stockError v.1 v.2))
  | none =>
    match resolveShipping s.addresses addressId inlineName with
    | none => (s, .error .addressNotFound)
    | some fullName =>
      let order := Order.calculateTotals
        { orderNumber := orderNumber, status := .pending,
          items := checkoutItems s.products s.cart,
          subtotal := 0, shippingCost := 0, tax := 0, total := 0,
          shippingFullName := fullName }
      ({ s with products := checkoutProducts s.products s.cart,
                orders := s.orders ++ [order], cart := [] }, .ok order)

/-- Error responses of the guest checkout (orders/serializers.py,
`GuestCheckoutSerializer`, field validation plus `validate_items`). -/
inductive GuestCheckoutError
  | emptyItems
  | invalidQuantity
  | productNotFound (productId : Nat)
  | productNotAvailable (name : String)
  | stockError (name : String) (available : Int)
  deriving Repr, DecidableEq

/-- orders/serializers.py, `GuestCheckoutSerializer`: quantity ≥ 1 per line
(`CheckoutItemSerializer`), then `validate_items`: per line the product must
exist, be active, and have stock at least the requested quantity; the first
failure aborts the request. -/
def guestValidateItems (ps : List Product) : List CartItem → Option GuestCheckoutError
  | [] => none
  | it :: rest =>
    if it.quantity < 1 then some .invalidQuantity else
    match findProduct ps it.productId with
    | none => some (.productNotFound it.productId)
    | some p =>
      if p.isActive = false then some (.productNotAvailable p.name)
      else if p.stock < it.quantity then some (.stockError p.name p.stock)
      else guestValidateItems ps rest

/-- orders/views.py, `GuestCheckoutView.post`: serializer validation (empty
list rejected, then `guestValidateItems`), then order creation, item
snapshots, stock decrements and totals, inside one transaction. -/
def guestCheckout (s : State) (items : List CartItem) (orderNumber : Nat)
    (shippingFullName : String) : State × Except GuestCheckoutError Order :=
  if items.isEmpty then (s, .error .emptyItems) else
  match guestValidateItems s.products items with
  | some e => (s, .error e)
  | none =>
    let order := Order.calculateTotals
      { orderNumber := orderNumber, status := .pending,
        items := checkoutItems s.products items,
        subtotal := 0, shippingCost := 0, tax := 0, total := 0,
        shippingFullName := shippingFullName }
    ({ s with products := checkoutProducts s.products items,
              orders := s.orders ++ [order] }, .ok order)

/-- Error responses of `CancelOrderView.post` (orders/views.py). -/
inductive CancelError
  | orderNotFound
  | notPending
  deriving Repr, DecidableEq

/-- The stock-restore loop of orders/views.py, `CancelOrderView.post`: for each
order line that still references a product, add the quantity back to its stock
(`item.product.stock += item.quantity`); `sales_count` is not touched. -/
def restoreProducts (ps : List Product) (items : List OrderItem) : List Product :=
  items.foldl (fun acc it =>
    match it.productId with
    | some pid => mapProduct acc pid fun p => { p with stock := p.stock + it.quantity }
    | none => acc) ps

/-- orders/views.py, `CancelOrderView.post`: only a pending order can be
cancelled; on success the order and all its items become `cancelled` and each
line's quantity is added back to its product's stock. -/
def cancelOrder (s : State) (orderNumber : Nat) : State × Except CancelError Order :=
  match findOrder s.orders orderNumber with
  | none => (s, .error .orderNotFound)
  | some o =>
    if o.status = OrderStatus.pending then
      let o' := { o with
        status := OrderStatus.cancelled,
        items := o.items.map fun it => { it with status := OrderStatus.cancelled } }
      ({ s with
          orders := s.orders.map (fun x => if x.orderNumber = orderNumber then o' else x),
          products := restoreProducts s.products o.items }, .ok o')
    else (s, .error .notPending)

/-- Error response of `AdminUpdateOrderStatusView.patch` (orders/views.py). -/
inductive AdminError
  | orderNotFound
  deriving Repr, DecidableEq

/-- orders/views.py, `AdminUpdateOrderStatusView.patch`: set the order's status
to the requested value (any member of `STATUS_CHOICES` passes the serializer —
there is no transition check) and bulk-overwrite every item's status with it. -/
def adminUpdateStatus (s : State) (orderNumber : Nat) (newStatus : OrderStatus) :
    State × Except AdminError Order :=
  match findOrder s.orders orderNumber with
  | none => (s, .error .orderNotFound)
  | some o =>
    let o' := { o with
      status := newStatus,
      items := o.items.map fun it => { it with status := newStatus } }
    ({ s with
        orders := s.orders.map (fun x => if x.orderNumber = orderNumber then o' else x) },
     .ok o')

/-- The status transitions the spec's state machine allows:
pending → processing → shipped → delivered, and pending → cancelled. -/
def allowedEdge : OrderStatus → OrderStatus → Bool
  | .pending, .processing => true
  | .processing, .shipped => true
  | .shipped, .delivered => true
  | .pending, .cancelled => true
  | _, _ => false

/-- accounts/models.py, `ADDRESS_TYPE_CHOICES`. -/
inductive AddressType
  | shipping
  | billing
  deriving Repr, DecidableEq

/-- Address row (accounts/models.py, class `Address`): the fields the default
invariant is about. -/
structure Address where
  aid : Nat
  userId : Nat
  addrType : AddressType
  isDefault : Bool
  deriving Repr, DecidableEq

/-- The clearing pass of `Address.save` (accounts/models.py):
`Address.objects.filter(user=..., address_type=..., is_default=True)
.update(is_default=False)`. -/
def clearDefaults (rows : List Address) (a : Address) : List Address :=
  rows.map fun r =>
    if r.userId = a.userId ∧ r.addrType = a.addrType ∧ r.isDefault = true then
      { r with isDefault := false }
    else r

/-- accounts/models.py, `Address.save`: when saving a default address, first
clear `is_default` on every stored address of the same user and type, then
persist the row (update in place when the id exists, insert otherwise). -/
def addressSave (rows : List Address) (a : Address) : List Address :=
  let cleared := if a.isDefault then clearDefaults rows a else rows
  if cleared.any fun r => r.aid == a.aid then
    cleared.map fun r => if r.aid = a.aid then a else r
  else cleared ++ [a]

/-- A sequence of address saves. -/
def runSaves (rows : List Address) (saves : List Address) : List Address :=
  saves.foldl addressSave rows

/-- The number of rows marked default for a given (user, type) pair. -/
def countDefaults : List Address → Nat → AddressType → Nat
  | [], _, _ => 0
  | r :: rest, u, t =>
    (if r.userId = u ∧ r.addrType = t ∧ r.isDefault = true then 1 else 0) +
      countDefaults rest u t

/-- The number of stored rows with a given primary key. -/
def countAid : List Address → Nat → Nat
  | [], _ => 0
  | r :: rest, x => (if r.aid = x then 1 else 0) + countAid rest x

/-- Primary-key integrity of the address table. -/
def aidUnique (rows : List Address) : Prop := ∀ x, countAid rows x ≤ 1

/-- The claimed invariant: at most one default address per (user, type). -/
def atMostOneDefault (rows : List Address) : Prop :=
  ∀ u t, countDefaults rows u t ≤ 1

/-- The state-changing operations of the flow, for sequences of calls. -/
inductive Op
  | addItem (productId : Nat) (quantity : Int)
  | updateItem (productId : Nat) (quantity : Int)
  | merge (items : List CartItem)
  | doCheckout (addressId : Option Nat) (orderNumber : Nat) (inlineName : String)
  | doGuestCheckout (items : List CartItem) (orderNumber : Nat) (shippingFullName : String)
  | cancel (orderNumber : Nat)
  | adminSetStatus (orderNumber : Nat) (newStatus : OrderStatus)

/-- Run one operation, keeping the resulting state (responses dropped). -/
def step (s : State) : Op → State
  | .addItem pid q => (addToCart s pid q).1
  | .updateItem pid q => (updateCartItem s pid q).1
  | .merge items => (mergeCart s items).1
  | .doCheckout aid n nm => (checkout s aid n nm).1
  | .doGuestCheckout items n nm => (guestCheckout s items n nm).1
  | .cancel n => (cancelOrder s n).1
  | .adminSetStatus n st => (adminUpdateStatus s n st).1

/-- Run a sequence of operations. -/
def run (s : State) (ops : List Op) : State := ops.foldl step s

/-- Every product row has non-negative stock. -/
def stocksNonneg (ps : List Product) : Prop := ∀ p ∈ ps, 0 ≤ p.stock

/-- Every cart line has non-negative quantity. -/
def cartNonneg (cart : List CartItem) : Prop := ∀ it ∈ cart, 0 ≤ it.quantity

/-- Every order line has non-negative quantity. -/
def ordersNonneg (os : List Order) : Prop := ∀ o ∈ os, ∀ it ∈ o.items, 0 ≤ it.quantity

/-- Well-formedness of a state: the quantities the schema constrains to be
non-negative (`PositiveIntegerField`) are non-negative. -/
def StateWF (s : State) : Prop :=
  stocksNonneg s.products ∧ cartNonneg s.cart ∧ ordersNonneg s.orders

/-! ### Concrete states and rows used to exercise the theorems -/

/-- A cart requesting 3 units of a product with stock 2. -/
def c1ViolState : State :=
  { products := [{ pid := 1, name := "P", price := 5, stock := 2, salesCount := 0,
                   isActive := true, vendorApproved := true }],
    cart := [⟨1, 3⟩], orders := [], addresses := [] }

/-- A cart requesting 2 units of a product with stock 2. -/
def c1OkState : State :=
  { products := [{ pid := 1, name := "P", price := 5, stock := 2, salesCount := 0,
                   isActive := true, vendorApproved := true }],
    cart := [⟨1, 2⟩], orders := [], addresses := [] }

/-- The empty database with an empty cart. -/
def c1EmptyState : State :=
  { products := [], cart := [], orders := [], addresses := [] }

/-- A cart requesting 3 units of a product with stock 10. -/
def c2State : State :=
  { products := [{ pid := 1, name := "P", price := 5, stock := 10, salesCount := 0,
                   isActive := true, vendorApproved := true }],
    cart := [⟨1, 3⟩], orders := [], addresses := [] }

/-- The order that checking out `c2State` produces (order number 5, name "x"). -/
def c2Order : Order :=
  { orderNumber := 5, status := .pending,
    items := [{ productId := some 1, productName := "P", productPrice := 5,
                quantity := 3, subtotal := 15, status := .pending }],
    subtotal := 15, shippingCost := 5, tax := 3 / 2, total := 43 / 2,
    shippingFullName := "x" }

/-- Two products from two vendors; the cart totals 2 * 15 + 1 * 10 = 40. -/
def c3State : State :=
  { products := [{ pid := 1, name := "A", price := 15, stock := 9, salesCount := 0,
                   isActive := true, vendorApproved := true },
                 { pid := 2, name := "B", price := 10, stock := 5, salesCount := 0,
                   isActive := true, vendorApproved := true }],
    cart := [⟨1, 2⟩, ⟨2, 1⟩], orders := [], addresses := [] }

/-- The order that checking out `c3State` produces (order number 7, name "n"). -/
def c3Order : Order :=
  { orderNumber := 7, status := .pending,
    items := [{ productId := some 1, productName := "A", productPrice := 15,
                quantity := 2, subtotal := 30, status := .pending },
              { productId := some 2, productName := "B", productPrice := 10,
                quantity := 1, subtotal := 10, status := .pending }],
    subtotal := 40, shippingCost := 5, tax := 4, total := 49,
    shippingFullName := "n" }

/-- A state with one product (stock 2) and a cart line for it. -/
def c4State : State :=
  { products := [{ pid := 1, name := "P", price := 5, stock := 2, salesCount := 0,
                   isActive := true, vendorApproved := true }],
    cart := [⟨1, 2⟩], orders := [], addresses := [] }

/-- Checkout, cancellation, and a fresh add-to-cart: a sequence exercising
each stock mutation. -/
def c4Ops : List Op :=
  [Op.doCheckout none 9 "w", Op.cancel 9, Op.addItem 1 1]

/-- A state containing one delivered order. -/
def c5DeliveredState : State :=
  { products := [], cart := [],
    orders := [{ orderNumber := 1, status := .delivered, items := [],
                 subtotal := 0, shippingCost := 0, tax := 0, total := 0,
                 shippingFullName := "g" }],
    addresses := [] }

/-- A state containing one pending order with one line. -/
def c5PendingState : State :=
  { products := [{ pid := 1, name := "P", price := 5, stock := 0, salesCount := 3,
                   isActive := true, vendorApproved := true }],
    cart := [],
    orders := [{ orderNumber := 2, status := .pending,
                 items := [{ productId := some 1, productName := "P", productPrice := 5,
                             quantity := 3, subtotal := 15, status := .pending }],
                 subtotal := 15, shippingCost := 5, tax := 3 / 2, total := 43 / 2,
                 shippingFullName := "h" }],
    addresses := [] }

/-- The order of `c5PendingState` after cancellation. -/
def c5CancelledOrder : Order :=
  { orderNumber := 2, status := .cancelled,
    items := [{ productId := some 1, productName := "P", productPrice := 5,
                quantity := 3, subtotal := 15, status := .cancelled }],
    subtotal := 15, shippingCost := 5, tax := 3 / 2, total := 43 / 2,
    shippingFullName := "h" }

/-- The order of `c5DeliveredState` after the admin sets status shipped. -/
def c5ShippedOrder : Order :=
  { orderNumber := 1, status := .shipped, items := [],
    subtotal := 0, shippingCost := 0, tax := 0, total := 0,
    shippingFullName := "g" }

/-- The order of `c10State` after the admin sets status cancelled. -/
def c10CancelledOrder : Order :=
  { orderNumber := 4, status := .cancelled,
    items := [{ productId := some 1, productName := "P", productPrice := 5,
                quantity := 3, subtotal := 15, status := .cancelled }],
    subtotal := 15, shippingCost := 5, tax := 3 / 2, total := 43 / 2,
    shippingFullName := "k" }

/-- Scenario A: product with stock 5 and a cart already holding 3 of it. -/
def c6State : State :=
  { products := [{ pid := 1, name := "P", price := 5, stock := 5, salesCount := 0,
                   isActive := true, vendorApproved := true }],
    cart := [⟨1, 3⟩], orders := [], addresses := [] }

/-- An active, approved product that is out of stock, with an empty cart. -/
def c7OutOfStockState : State :=
  { products := [{ pid := 1, name := "P", price := 5, stock := 0, salesCount := 0,
                   isActive := true, vendorApproved := true }],
    cart := [], orders := [], addresses := [] }

/-- Scenario C: product P1 with stock 4, empty cart, guest line asking for 10. -/
def c7MergeState : State :=
  { products := [{ pid := 1, name := "P1", price := 5, stock := 4, salesCount := 0,
                   isActive := true, vendorApproved := true }],
    cart := [], orders := [], addresses := [] }

/-- Two saves of default shipping addresses for the same user. -/
def c9Saves : List Address :=
  [{ aid := 1, userId := 7, addrType := .shipping, isDefault := true },
   { aid := 2, userId := 7, addrType := .shipping, isDefault := true }]

/-- A state with one product and one pending order referencing it. -/
def c10State : State :=
  { products := [{ pid := 1, name := "P", price := 5, stock := 7, salesCount := 3,
                   isActive := true, vendorApproved := true }],
    cart := [⟨1, 1⟩],
    orders := [{ orderNumber := 4, status := .pending,
                 items := [{ productId := some 1, productName := "P", productPrice := 5,
                             quantity := 3, subtotal := 15, status := .pending }],
                 subtotal := 15, shippingCost := 5, tax := 3 / 2, total := 43 / 2,
                 shippingFullName := "k" }],
    addresses := [] }

/-! ### Basic lemmas about lookups and row updates -/

theorem findProduct_pid {ps : List Product} {pid : Nat} {p : Product}
    (h : findProduct ps pid = some p) : p.pid = pid := by
  induction ps with
  | nil => simp [findProduct] at h
  | cons q ps ih =>
    by_cases hq : q.pid = pid
    · simp [findProduct, hq] at h; simp [← h, hq]
    · simp [findProduct, hq] at h; exact ih h

theorem findProduct_mem {ps : List Product} {pid : Nat} {p : Product}
    (h : findProduct ps pid = some p) : p ∈ ps := by
  induction ps with
  | nil => simp [findProduct] at h
  | cons q ps ih =>
    by_cases hq : q.pid = pid
    · simp [findProduct, hq] at h; simp [h]
    · simp [findProduct, hq] at h; exact List.mem_cons_of_mem _ (ih h)

theorem findProduct_mapProduct_self {ps : List Product} {pid : Nat} {f : Product → Product}
    (hf : ∀ p, (f p).pid = p.pid) :
    findProduct (mapProduct ps pid f) pid = (findProduct ps pid).map f := by
  induction ps with
  | nil => simp [findProduct, mapProduct]
  | cons q ps ih =>
    by_cases hq : q.pid = pid
    · simp [mapProduct, findProduct, hq, hf q]
    · simpa [mapProduct, findProduct, hq] using ih

theorem findProduct_mapProduct_other {ps : List Product} {pid pid' : Nat} {f : Product → Product}
    (hf : ∀ p, (f p).pid = p.pid) (h : pid' ≠ pid) :
    findProduct (mapProduct ps pid f) pid' = findProduct ps pid' := by
  induction ps with
  | nil => simp [findProduct, mapProduct]
  | cons q ps ih =>
    simp only [mapProduct, List.map_cons]
    by_cases hq : q.pid = pid
    · rw [if_pos hq]
      have h1 : ¬ (f q).pid = pid' := by rw [hf q, hq]; exact fun hh => h hh.symm
      have h2 : ¬ q.pid = pid' := by rw [hq]; exact fun hh => h hh.symm
      simp only [findProduct, if_neg h1, if_neg h2]
      simpa [mapProduct] using ih
    · rw [if_neg hq]
      simp only [findProduct]
      by_cases hq' : q.pid = pid'
      · simp [hq']
      · simp only [if_neg hq']
        simpa [mapProduct] using ih

theorem findCartItem_pid {cart : List CartItem} {pid : Nat} {it : CartItem}
    (h : findCartItem cart pid = some it) : it.productId = pid := by
  induction cart with
  | nil => simp [findCartItem] at h
  | cons q cart ih =>
    by_cases hq : q.productId = pid
    · simp [findCartItem, hq] at h; simp [← h, hq]
    · simp [findCartItem, hq] at h; exact ih h

theorem findCartItem_mapCartItem_self {cart : List CartItem} {pid : Nat}
    {f : CartItem → CartItem} (hf : ∀ it, (f it).productId = it.productId) :
    findCartItem (mapCartItem cart pid f) pid = (findCartItem cart pid).map f := by
  induction cart with
  | nil => simp [findCartItem, mapCartItem]
  | cons q cart ih =>
    by_cases hq : q.productId = pid
    · simp [mapCartItem, findCartItem, hq, hf q]
    · simpa [mapCartItem, findCartItem, hq] using ih

theorem findCartItem_append_none {cart : List CartItem} {pid : Nat} {it : CartItem}
    (h : findCartItem cart pid = none) (hit : it.productId = pid) :
    findCartItem (cart ++ [it]) pid = some it := by
  induction cart with
  | nil => simp [findCartItem, hit]
  | cons q cart ih =>
    by_cases hq : q.productId = pid
    · simp [findCartItem, hq] at h
    · simp [findCartItem, hq] at h ⊢; exact ih h

theorem findOrder_append_none {os : List Order} {n : Nat} {o : Order}
    (h : findOrder os n = none) (ho : o.orderNumber = n) :
    findOrder (os ++ [o]) n = some o := by
  induction os with
  | nil => simp [findOrder, ho]
  | cons q os ih =>
    by_cases hq : q.orderNumber = n
    · simp [findOrder, hq] at h
    · simp [findOrder, hq] at h ⊢; exact ih h

theorem saveQuantity_eq_of_bounds {q stock : Int} (h1 : 1 ≤ q) (h2 : q ≤ stock) :
    saveQuantity q stock = q := by
  simp only [saveQuantity]
  omega

theorem saveQuantity_nonneg {q stock : Int} (h : 0 ≤ stock) : 0 ≤ saveQuantity q stock := by
  simp only [saveQuantity]
  omega

theorem updateStock_pid (p : Product) (q : Int) : (p.updateStock q).pid = p.pid := rfl

theorem updateStock_stock_nonneg (p : Product) (q : Int) : 0 ≤ (p.updateStock q).stock := by
  simp only [Product.updateStock]
  omega

theorem calculateTotals_status (o : Order) :
    (Order.calculateTotals o).status = o.status := rfl

theorem calculateTotals_items (o : Order) :
    (Order.calculateTotals o).items = o.items := rfl

theorem calculateTotals_orderNumber (o : Order) :
    (Order.calculateTotals o).orderNumber = o.orderNumber := rfl

/-! ### The stock-update folds of checkout and cancellation -/

theorem checkoutProducts_cons (ps : List Product) (l : CartItem) (rest : List CartItem) :
    checkoutProducts ps (l :: rest) =
      checkoutProducts (mapProduct ps l.productId (Product.updateStock · l.quantity)) rest := rfl

theorem findProduct_checkoutProducts_not_mem {lines : List CartItem} {ps : List Product}
    {pid : Nat} (h : ∀ l ∈ lines, l.productId ≠ pid) :
    findProduct (checkoutProducts ps lines) pid = findProduct ps pid := by
  induction lines generalizing ps with
  | nil => rfl
  | cons l rest ih =>
    rw [checkoutProducts_cons, ih (fun x hx => h x (List.mem_cons_of_mem _ hx))]
    exact findProduct_mapProduct_other (fun _ => rfl)
      (fun hh => (h l (List.mem_cons_self _ _)) hh.symm)

theorem findProduct_checkoutProducts_mem {lines : List CartItem} {ps : List Product}
    {it : CartItem} (hmem : it ∈ lines) (hnd : (lines.map CartItem.productId).Nodup) :
    findProduct (checkoutProducts ps lines) it.productId =
      (findProduct ps it.productId).map (Product.updateStock · it.quantity) := by
  induction lines generalizing ps with
  | nil => cases hmem
  | cons l rest ih =>
    rw [List.map_cons, List.nodup_cons] at hnd
    rw [checkoutProducts_cons]
    rcases List.mem_cons.mp hmem with h1 | h1
    · subst h1
      have hrest : ∀ x ∈ rest, x.productId ≠ it.productId := by
        intro x hx hex
        exact hnd.1 (hex ▸ List.mem_map_of_mem CartItem.productId hx)
      rw [findProduct_checkoutProducts_not_mem hrest]
      exact findProduct_mapProduct_self (fun _ => rfl)
    · have hne : it.productId ≠ l.productId := by
        intro hex
        exact hnd.1 (hex ▸ List.mem_map_of_mem CartItem.productId h1)
      rw [ih h1 hnd.2,
        findProduct_mapProduct_other (f := (Product.updateStock · l.quantity)) (fun _ => rfl) hne]

theorem restoreProducts_cons (ps : List Product) (it : OrderItem) (items : List OrderItem) :
    restoreProducts ps (it :: items) =
      restoreProducts (match it.productId with
        | some pid => mapProduct ps pid fun p => { p with stock := p.stock + it.quantity }
        | none => ps) items := rfl

theorem findProduct_restoreProducts_not_mem {items : List OrderItem} {ps : List Product}
    {pid : Nat} (h : ∀ x ∈ items, x.productId ≠ some pid) :
    findProduct (restoreProducts ps items) pid = findProduct ps pid := by
  induction items generalizing ps with
  | nil => rfl
  | cons x rest ih =>
    rw [restoreProducts_cons, ih (fun y hy => h y (List.mem_cons_of_mem _ hy))]
    cases hx : x.productId with
    | none => rfl
    | some k =>
      have hk : pid ≠ k := by
        intro hh
        exact h x (List.mem_cons_self _ _) (by rw [hx, hh])
      exact findProduct_mapProduct_other (fun _ => rfl) hk

theorem findProduct_restoreProducts_mem {items : List OrderItem} {ps : List Product}
    {oi : OrderItem} {pid : Nat} (hmem : oi ∈ items) (hpid : oi.productId = some pid)
    (hnd : (items.filterMap OrderItem.productId).Nodup) :
    findProduct (restoreProducts ps items) pid =
      (findProduct ps pid).map fun p => { p with stock := p.stock + oi.quantity } := by
  induction items generalizing ps with
  | nil => cases hmem
  | cons x rest ih =>
    rw [restoreProducts_cons]
    rcases List.mem_cons.mp hmem with h1 | h1
    · subst h1
      rw [List.filterMap_cons, hpid, List.nodup_cons] at hnd
      have hrest : ∀ y ∈ rest, y.productId ≠ some pid := by
        intro y hy hey
        exact hnd.1 (List.mem_filterMap.mpr ⟨y, hy, hey⟩)
      rw [findProduct_restoreProducts_not_mem hrest, hpid]
      exact findProduct_mapProduct_self (fun _ => rfl)
    · cases hx : x.productId with
      | none =>
        rw [List.filterMap_cons, hx] at hnd
        exact ih h1 hnd
      | some k =>
        rw [List.filterMap_cons, hx, List.nodup_cons] at hnd
        have hk : pid ≠ k := by
          intro hh
          exact hnd.1 (hh ▸ List.mem_filterMap.mpr ⟨oi, h1, hpid⟩)
        rw [ih h1 hnd.2, findProduct_mapProduct_other
          (f := fun p => { p with stock := p.stock + x.quantity }) (fun _ => rfl) hk]

theorem stocksNonneg_mapProduct {ps : List Product} {pid : Nat} {f : Product → Product}
    (hps : stocksNonneg ps) (hf : ∀ p ∈ ps, 0 ≤ (f p).stock) :
    stocksNonneg (mapProduct ps pid f) := by
  intro p hp
  obtain ⟨q, hq, hpq⟩ := List.mem_map.mp hp
  by_cases h : q.pid = pid
  · rw [if_pos h] at hpq; exact hpq ▸ hf q hq
  · rw [if_neg h] at hpq; exact hpq ▸ hps q hq

theorem stocksNonneg_checkoutProducts {lines : List CartItem} {ps : List Product}
    (hps : stocksNonneg ps) : stocksNonneg (checkoutProducts ps lines) := by
  induction lines generalizing ps with
  | nil => exact hps
  | cons l rest ih =>
    rw [checkoutProducts_cons]
    exact ih (stocksNonneg_mapProduct hps fun p _ => updateStock_stock_nonneg p l.quantity)

theorem stocksNonneg_restoreProducts {items : List OrderItem} {ps : List Product}
    (hps : stocksNonneg ps) (hq : ∀ it ∈ items, 0 ≤ it.quantity) :
    stocksNonneg (restoreProducts ps items) := by
  induction items generalizing ps with
  | nil => exact hps
  | cons x rest ih =>
    rw [restoreProducts_cons]
    refine ih ?_ (fun it hit => hq it (List.mem_cons_of_mem _ hit))
    cases hx : x.productId with
    | none => exact hps
    | some k =>
      refine stocksNonneg_mapProduct hps fun p hp => ?_
      have := hps p hp
      have := hq x (List.mem_cons_self _ _)
      simp only []
      omega

/-! ### Stock validation -/

theorem stockViolation_none {ps : List Product} {lines : List CartItem}
    (h : stockViolation ps lines = none) :
    ∀ it ∈ lines, ∀ p, findProduct ps it.productId = some p → it.quantity ≤ p.stock := by
  induction lines with
  | nil => intro it hit; cases hit
  | cons l rest ih =>
    have h' : stockViolation ps rest = none ∧
        ∀ p, findProduct ps l.productId = some p → l.quantity ≤ p.stock := by
      cases hf : findProduct ps l.productId with
      | none =>
        simp only [stockViolation, hf] at h
        exact ⟨h, fun p hp => by simp at hp⟩
      | some q =>
        simp only [stockViolation, hf] at h
        by_cases hlt : q.stock < l.quantity
        · rw [if_pos hlt] at h; cases h
        · rw [if_neg hlt] at h
          refine ⟨h, fun p hp => ?_⟩
          injection hp with hq; subst hq; omega
    intro it hit p hp
    rcases List.mem_cons.mp hit with h1 | h1
    · subst h1; exact h'.2 p hp
    · exact ih h'.1 it h1 p hp

theorem stockViolation_eq_none {ps : List Product} {lines : List CartItem}
    (h : ∀ it ∈ lines, ∀ p, findProduct ps it.productId = some p → it.quantity ≤ p.stock) :
    stockViolation ps lines = none := by
  induction lines with
  | nil => rfl
  | cons l rest ih =>
    have hrest := ih fun it hit p hp => h it (List.mem_cons_of_mem _ hit) p hp
    cases hf : findProduct ps l.productId with
    | none => simp only [stockViolation, hf]; exact hrest
    | some q =>
      have hq := h l (List.mem_cons_self _ _) q hf
      simp only [stockViolation, hf, if_neg (by omega : ¬ q.stock < l.quantity)]
      exact hrest

theorem stockViolation_of_violation {ps : List Product} {lines : List CartItem}
    (h : ∃ it ∈ lines, ∃ p, findProduct ps it.productId = some p ∧ p.stock < it.quantity) :
    ∃ it ∈ lines, ∃ p, findProduct ps it.productId = some p ∧ p.stock < it.quantity ∧
      stockViolation ps lines = some (p.name, p.stock) := by
  induction lines with
  | nil => obtain ⟨it, hit, _⟩ := h; cases hit
  | cons l rest ih =>
    cases hf : findProduct ps l.productId with
    | some q =>
      by_cases hlt : q.stock < l.quantity
      · exact ⟨l, List.mem_cons_self _ _, q, hf, hlt, by
          simp only [stockViolation, hf, if_pos hlt]⟩
      · have hrest : ∃ it ∈ rest, ∃ p,
            findProduct ps it.productId = some p ∧ p.stock < it.quantity := by
          obtain ⟨it, hit, p, hp, hv⟩ := h
          rcases List.mem_cons.mp hit with h1 | h1
          · subst h1; rw [hf] at hp; injection hp with hq; subst hq; exact absurd hv hlt
          · exact ⟨it, h1, p, hp, hv⟩
        obtain ⟨it, hit, p, hp, hv, hs⟩ := ih hrest
        refine ⟨it, List.mem_cons_of_mem _ hit, p, hp, hv, ?_⟩
        simp only [stockViolation, hf, if_neg hlt]
        exact hs
    | none =>
      have hrest : ∃ it ∈ rest, ∃ p,
          findProduct ps it.productId = some p ∧ p.stock < it.quantity := by
        obtain ⟨it, hit, p, hp, hv⟩ := h
        rcases List.mem_cons.mp hit with h1 | h1
        · subst h1; rw [hf] at hp; cases hp
        · exact ⟨it, h1, p, hp, hv⟩
      obtain ⟨it, hit, p, hp, hv, hs⟩ := ih hrest
      refine ⟨it, List.mem_cons_of_mem _ hit, p, hp, hv, ?_⟩
      simp only [stockViolation, hf]
      exact hs

/-! ### The order-line snapshots -/

theorem checkoutItems_cons_some {ps : List Product} {l : CartItem} {p : Product}
    (rest : List CartItem) (hp : findProduct ps l.productId = some p) :
    checkoutItems ps (l :: rest) = mkOrderItem p l.quantity :: checkoutItems ps rest := by
  simp [checkoutItems, List.filterMap_cons, hp]

theorem checkoutItems_cons_none {ps : List Product} {l : CartItem}
    (rest : List CartItem) (hp : findProduct ps l.productId = none) :
    checkoutItems ps (l :: rest) = checkoutItems ps rest := by
  simp [checkoutItems, List.filterMap_cons, hp]

theorem checkoutItems_keys {ps : List Product} {lines : List CartItem}
    (h : ∀ it ∈ lines, (findProduct ps it.productId).isSome) :
    (checkoutItems ps lines).filterMap OrderItem.productId = lines.map CartItem.productId := by
  induction lines with
  | nil => rfl
  | cons l rest ih =>
    obtain ⟨p, hp⟩ := Option.isSome_iff_exists.mp (h l (List.mem_cons_self _ _))
    rw [checkoutItems_cons_some rest hp, List.filterMap_cons, List.map_cons]
    have hpid : (mkOrderItem p l.quantity).productId = some l.productId := by
      simp [mkOrderItem, findProduct_pid hp]
    rw [hpid]
    simp only []
    rw [ih fun it hit => h it (List.mem_cons_of_mem _ hit)]

theorem mkOrderItem_mem_checkoutItems {ps : List Product} {lines : List CartItem}
    {it : CartItem} {p : Product} (hmem : it ∈ lines)
    (hp : findProduct ps it.productId = some p) :
    mkOrderItem p it.quantity ∈ checkoutItems ps lines :=
  List.mem_filterMap.mpr ⟨it, hmem, by rw [hp]; rfl⟩

theorem checkoutItems_quantity {ps : List Product} {lines : List CartItem} {oi : OrderItem}
    (h : oi ∈ checkoutItems ps lines) : ∃ it ∈ lines, oi.quantity = it.quantity := by
  obtain ⟨it, hit, hoi⟩ := List.mem_filterMap.mp h
  cases hf : findProduct ps it.productId with
  | none => rw [hf] at hoi; cases hoi
  | some p =>
    rw [hf] at hoi; injection hoi with h'
    exact ⟨it, hit, by rw [← h']; rfl⟩

/-! ### Guest item validation -/

theorem guestValidateItems_cons_some {ps : List Product} {l : CartItem} {p : Product}
    (rest : List CartItem) (hp : findProduct ps l.productId = some p) :
    guestValidateItems ps (l :: rest) =
      if l.quantity < 1 then some GuestCheckoutError.invalidQuantity
      else if p.isActive = false then some (GuestCheckoutError.productNotAvailable p.name)
      else if p.stock < l.quantity then some (GuestCheckoutError.stockError p.name p.stock)
      else guestValidateItems ps rest := by
  rw [guestValidateItems, hp]

theorem guestValidateItems_cons_none {ps : List Product} {l : CartItem}
    (rest : List CartItem) (hp : findProduct ps l.productId = none) :
    guestValidateItems ps (l :: rest) =
      if l.quantity < 1 then some GuestCheckoutError.invalidQuantity
      else some (GuestCheckoutError.productNotFound l.productId) := by
  rw [guestValidateItems, hp]

theorem guestValidateItems_none {ps : List Product} {items : List CartItem}
    (h : guestValidateItems ps items = none) :
    ∀ it ∈ items, 1 ≤ it.quantity ∧
      ∃ p, findProduct ps it.productId = some p ∧ p.isActive = true ∧ it.quantity ≤ p.stock := by
  induction items with
  | nil => intro it hit; cases hit
  | cons l rest ih =>
    by_cases hq1 : l.quantity < 1
    · rw [guestValidateItems, if_pos hq1] at h; simp at h
    · cases hf : findProduct ps l.productId with
      | none => rw [guestValidateItems_cons_none rest hf, if_neg hq1] at h; simp at h
      | some p =>
        rw [guestValidateItems_cons_some rest hf, if_neg hq1] at h
        by_cases ha : p.isActive = false
        · rw [if_pos ha] at h; simp at h
        · rw [if_neg ha] at h
          by_cases hs : p.stock < l.quantity
          · rw [if_pos hs] at h; simp at h
          · rw [if_neg hs] at h
            intro it hit
            rcases List.mem_cons.mp hit with h1 | h1
            · subst h1
              exact ⟨by omega, p, hf, by simpa using ha, by omega⟩
            · exact ih h it h1

theorem guestValidateItems_eq_none {ps : List Product} {items : List CartItem}
    (h : ∀ it ∈ items, 1 ≤ it.quantity ∧
      ∃ p, findProduct ps it.productId = some p ∧ p.isActive = true ∧ it.quantity ≤ p.stock) :
    guestValidateItems ps items = none := by
  induction items with
  | nil => rfl
  | cons l rest ih =>
    obtain ⟨hq1, p, hp, ha, hs⟩ := h l (List.mem_cons_self _ _)
    rw [guestValidateItems_cons_some rest hp, if_neg (by omega : ¬ l.quantity < 1),
      if_neg (by simp [ha] : ¬ p.isActive = false),
      if_neg (by omega : ¬ p.stock < l.quantity)]
    exact ih fun it hit => h it (List.mem_cons_of_mem _ hit)

theorem guestValidateItems_stock_violation {ps : List Product} {items : List CartItem}
    (hwf : ∀ it ∈ items, 1 ≤ it.quantity ∧
      ∃ p, findProduct ps it.productId = some p ∧ p.isActive = true)
    (h : ∃ it ∈ items, ∃ p, findProduct ps it.productId = some p ∧ p.stock < it.quantity) :
    ∃ it ∈ items, ∃ p, findProduct ps it.productId = some p ∧ p.stock < it.quantity ∧
      guestValidateItems ps items = some (GuestCheckoutError.stockError p.name p.stock) := by
  induction items with
  | nil => obtain ⟨it, hit, _⟩ := h; cases hit
  | cons l rest ih =>
    obtain ⟨hq1, p, hp, ha⟩ := hwf l (List.mem_cons_self _ _)
    by_cases hs : p.stock < l.quantity
    · refine ⟨l, List.mem_cons_self _ _, p, hp, hs, ?_⟩
      rw [guestValidateItems_cons_some rest hp, if_neg (by omega : ¬ l.quantity < 1),
        if_neg (by simp [ha] : ¬ p.isActive = false), if_pos hs]
    · have hrest : ∃ it ∈ rest, ∃ q,
          findProduct ps it.productId = some q ∧ q.stock < it.quantity := by
        obtain ⟨it, hit, q, hq, hv⟩ := h
        rcases List.mem_cons.mp hit with h1 | h1
        · subst h1; rw [hp] at hq; injection hq with hq'; subst hq'; exact absurd hv hs
        · exact ⟨it, h1, q, hq, hv⟩
      obtain ⟨it, hit, q, hq, hv, hgv⟩ := ih (fun x hx => hwf x (List.mem_cons_of_mem _ hx)) hrest
      refine ⟨it, List.mem_cons_of_mem _ hit, q, hq, hv, ?_⟩
      rw [guestValidateItems_cons_some rest hp, if_neg (by omega : ¬ l.quantity < 1),
        if_neg (by simp [ha] : ¬ p.isActive = false), if_neg hs]
      exact hgv

/-! ### Characterizing the checkout responses -/

theorem checkout_ok {s : State} {aid : Option Nat} {n : Nat} {nm : String}
    {s' : State} {o : Order} (h : checkout s aid n nm = (s', Except.ok o)) :
    s.cart ≠ [] ∧ stockViolation s.products s.cart = none ∧
    (∃ fullName, o = Order.calculateTotals
      { orderNumber := n, status := .pending, items := checkoutItems s.products s.cart,
        subtotal := 0, shippingCost := 0, tax := 0, total := 0,
        shippingFullName := fullName }) ∧
    s' = { s with products := checkoutProducts s.products s.cart,
                  orders := s.orders ++ [o], cart := [] } := by
  rw [checkout.eq_def] at h
  by_cases hne : s.cart.isEmpty
  · rw [if_pos hne] at h; simp at h
  · rw [if_neg hne] at h
    cases hv : stockViolation s.products s.cart with
    | some v => rw [hv] at h; simp at h
    | none =>
      rw [hv] at h
      have hemp : s.cart ≠ [] := by simpa using hne
      cases haddr : resolveShipping s.addresses aid nm with
      | none => rw [haddr] at h; simp at h
      | some fn =>
        rw [haddr] at h
        injection h with h1 h2
        injection h2 with h2
        exact ⟨hemp, rfl, ⟨fn, h2.symm⟩, by rw [← h1, h2]⟩

theorem checkout_succeeds {s : State} {aid : Option Nat} (n : Nat) (nm : String)
    (hne : s.cart ≠ [])
    (hok : ∀ it ∈ s.cart, ∀ p, findProduct s.products it.productId = some p →
      it.quantity ≤ p.stock)
    (haddr : ∀ a, aid = some a → (findAddress s.addresses a).isSome) :
    ∃ o, (checkout s aid n nm).2 = Except.ok o := by
  have hres : ∃ fn, resolveShipping s.addresses aid nm = some fn := by
    cases aid with
    | none => exact ⟨nm, rfl⟩
    | some a =>
      obtain ⟨fn, hfn⟩ := Option.isSome_iff_exists.mp (haddr a rfl)
      exact ⟨fn, hfn⟩
  obtain ⟨fn, hfn⟩ := hres
  rw [checkout.eq_def, if_neg (by simpa using hne), stockViolation_eq_none hok, hfn]
  exact ⟨_, rfl⟩

theorem guestCheckout_ok {s : State} {items : List CartItem} {n : Nat} {nm : String}
    {s' : State} {o : Order} (h : guestCheckout s items n nm = (s', Except.ok o)) :
    items ≠ [] ∧ guestValidateItems s.products items = none ∧
    o = Order.calculateTotals
      { orderNumber := n, status := .pending, items := checkoutItems s.products items,
        subtotal := 0, shippingCost := 0, tax := 0, total := 0,
        shippingFullName := nm } ∧
    s' = { s with products := checkoutProducts s.products items,
                  orders := s.orders ++ [o] } := by
  rw [guestCheckout] at h
  by_cases hne : items.isEmpty
  · rw [if_pos hne] at h; simp at h
  · rw [if_neg hne] at h
    cases hv : guestValidateItems s.products items with
    | some e => rw [hv] at h; simp at h
    | none =>
      rw [hv] at h
      injection h with h1 h2
      injection h2 with h2
      exact ⟨by simpa using hne, rfl, h2.symm, by rw [← h1, h2]⟩

theorem guestCheckout_succeeds {s : State} {items : List CartItem} (n : Nat) (nm : String)
    (hne : items ≠ [])
    (hok : ∀ it ∈ items, 1 ≤ it.quantity ∧
      ∃ p, findProduct s.products it.productId = some p ∧ p.isActive = true ∧
        it.quantity ≤ p.stock) :
    ∃ o, (guestCheckout s items n nm).2 = Except.ok o := by
  rw [guestCheckout, if_neg (by simpa using hne), guestValidateItems_eq_none hok]
  exact ⟨_, rfl⟩

theorem cancelOrder_of_pending {s : State} {n : Nat} {o : Order}
    (hfind : findOrder s.orders n = some o) (hp : o.status = OrderStatus.pending) :
    cancelOrder s n =
      ({ s with
          orders := s.orders.map (fun x => if x.orderNumber = n then
            { o with
              status := OrderStatus.cancelled,
              items := o.items.map fun it => { it with status := OrderStatus.cancelled } } else x),
          products := restoreProducts s.products o.items },
       Except.ok { o with
          status := OrderStatus.cancelled,
          items := o.items.map fun it => { it with status := OrderStatus.cancelled } }) := by
  simp [cancelOrder, hfind, hp]

theorem cancelOrder_ok {s : State} {n : Nat} {s' : State} {o' : Order}
    (h : cancelOrder s n = (s', Except.ok o')) :
    ∃ o, findOrder s.orders n = some o ∧ o.status = OrderStatus.pending ∧
      o' = { o with
        status := OrderStatus.cancelled,
        items := o.items.map fun it => { it with status := OrderStatus.cancelled } } ∧
      s' = { s with
          orders := s.orders.map (fun x => if x.orderNumber = n then o' else x),
          products := restoreProducts s.products o.items } := by
  cases hfind : findOrder s.orders n with
  | none =>
    have heq : cancelOrder s n = (s, Except.error CancelError.orderNotFound) := by
      simp [cancelOrder, hfind]
    rw [heq] at h; simp at h
  | some o =>
    by_cases hp : o.status = OrderStatus.pending
    · rw [cancelOrder_of_pending hfind hp] at h
      injection h with h1 h2
      injection h2 with h2
      exact ⟨o, rfl, hp, h2.symm, by rw [← h1, h2]⟩
    · have heq : cancelOrder s n = (s, Except.error CancelError.notPending) := by
        simp [cancelOrder, hfind, hp]
      rw [heq] at h; simp at h

theorem adminUpdateStatus_of_found {s : State} {n : Nat} {st : OrderStatus} {o : Order}
    (hfind : findOrder s.orders n = some o) :
    adminUpdateStatus s n st =
      ({ s with orders := s.orders.map (fun x => if x.orderNumber = n then
            { o with status := st, items := o.items.map fun it => { it with status := st } }
          else x) },
       Except.ok { o with
          status := st,
          items := o.items.map fun it => { it with status := st } }) := by
  simp [adminUpdateStatus, hfind]

theorem adminUpdateStatus_ok {s : State} {n : Nat} {st : OrderStatus} {s' : State} {o' : Order}
    (h : adminUpdateStatus s n st = (s', Except.ok o')) :
    ∃ o, findOrder s.orders n = some o ∧
      o' = { o with status := st, items := o.items.map fun it => { it with status := st } } ∧
      s' = { s with orders := s.orders.map (fun x => if x.orderNumber = n then o' else x) } := by
  cases hfind : findOrder s.orders n with
  | none =>
    have heq : adminUpdateStatus s n st = (s, Except.error AdminError.orderNotFound) := by
      simp [adminUpdateStatus, hfind]
    rw [heq] at h; simp at h
  | some o =>
    rw [adminUpdateStatus_of_found hfind] at h
    injection h with h1 h2
    injection h2 with h2
    exact ⟨o, rfl, h2.symm, by rw [← h1, h2]⟩

/-! ### Claim C2 -/

/-- C2: cancelling the (still pending) order produced by a successful
authenticated checkout succeeds, and restores every affected product's stock
to its exact pre-checkout value while the product keeps the `sales_count`
increment from checkout (the counter is not decremented back).  The
hypotheses state database integrity: one cart line per product
(`unique_together`), cart lines reference existing products (foreign key),
and the new order number is fresh (`order_number` is unique). -/
theorem C2_cancel_restores_stock_keeps_sales (s : State) (aid : Option Nat)
    (n : Nat) (nm : String) (s' : State) (o : Order)
    (hnodup : (s.cart.map CartItem.productId).Nodup)
    (hres : ∀ it ∈ s.cart, (findProduct s.products it.productId).isSome)
    (hfresh : findOrder s.orders n = none)
    (hck : checkout s aid n nm = (s', Except.ok o)) :
    (cancelOrder s' n).2 = Except.ok { o with
      status := OrderStatus.cancelled,
      items := o.items.map fun it => { it with status := OrderStatus.cancelled } } ∧
    ∀ it ∈ s.cart, ∀ p, findProduct s.products it.productId = some p →
      findProduct (cancelOrder s' n).1.products it.productId =
        some { p with salesCount := p.salesCount + it.quantity } := by
  obtain ⟨hemp, hv, ⟨fn, ho⟩, hs'⟩ := checkout_ok hck
  have hostat : o.status = OrderStatus.pending := by rw [ho]; rfl
  have honum : o.orderNumber = n := by rw [ho]; rfl
  have hoitems : o.items = checkoutItems s.products s.cart := by rw [ho]; rfl
  have hfind : findOrder s'.orders n = some o := by
    rw [hs']
    exact findOrder_append_none hfresh honum
  have hcancel := cancelOrder_of_pending hfind hostat
  constructor
  · rw [hcancel]
  · intro it hit p hp
    rw [hcancel]
    show findProduct (restoreProducts s'.products o.items) it.productId = _
    have hkeys : (o.items.filterMap OrderItem.productId).Nodup := by
      rw [hoitems, checkoutItems_keys hres]; exact hnodup
    have hoi_mem : mkOrderItem p it.quantity ∈ o.items := by
      rw [hoitems]; exact mkOrderItem_mem_checkoutItems hit hp
    have hoi_pid : (mkOrderItem p it.quantity).productId = some it.productId := by
      simp [mkOrderItem, findProduct_pid hp]
    have hstep1 : findProduct s'.products it.productId =
        some (p.updateStock it.quantity) := by
      rw [hs']
      show findProduct (checkoutProducts s.products s.cart) it.productId = _
      rw [findProduct_checkoutProducts_mem hit hnodup, hp]
      rfl
    have hstep2 : findProduct (restoreProducts s'.products o.items) it.productId =
        (findProduct s'.products it.productId).map
          (fun q2 => { q2 with stock := q2.stock + it.quantity }) :=
      findProduct_restoreProducts_mem hoi_mem hoi_pid hkeys
    rw [hstep2, hstep1]
    have hq : it.quantity ≤ p.stock := stockViolation_none hv it hit p hp
    simp only [Option.map_some']
    cases p with
    | mk pid pname pprice pstock psales pact papp =>
      simp only [Product.updateStock, mkOrderItem, Product.mk.injEq, Option.some.injEq,
        true_and, and_true, eq_self_iff_true]
      simp only [] at hq ⊢
      omega

/-- Witness for C2: checking out a cart of 3 units of a stock-10 product and
cancelling the resulting order leaves the product at stock 10 with
sales_count 3. -/
theorem C2_witness :
    (checkout c2State none 5 "x").2 = Except.ok c2Order ∧
    findProduct (cancelOrder (checkout c2State none 5 "x").1 5).1.products 1 =
      some { pid := 1, name := "P", price := 5, stock := 10, salesCount := 3,
             isActive := true, vendorApproved := true } := by
  have h1 : (checkout c2State none 5 "x").2 = Except.ok c2Order := by
    norm_num [checkout.eq_def, c2State, c2Order, stockViolation, findProduct,
      resolveShipping, checkoutItems, mkOrderItem, Order.calculateTotals,
      List.filterMap_cons]
  have hck : checkout c2State none 5 "x" =
      ((checkout c2State none 5 "x").1, Except.ok c2Order) := by
    rw [Prod.ext_iff]
    exact ⟨rfl, h1⟩
  have h := C2_cancel_restores_stock_keeps_sales c2State none 5 "x"
    (checkout c2State none 5 "x").1 c2Order (by decide)
    (by intro it hit; cases hit with
        | head => rfl
        | tail _ h2 => cases h2)
    (by rfl) hck
  refine ⟨h1, ?_⟩
  have h2 := h.2 ⟨1, 3⟩ (List.mem_singleton.mpr rfl)
    { pid := 1, name := "P", price := 5, stock := 10, salesCount := 0,
      isActive := true, vendorApproved := true } (by rfl)
  simpa using h2

/-! ### Claim C3 -/

/-- C3: for every successfully created order (authenticated or guest path),
after totals computation the subtotal equals the sum of the item subtotals,
tax equals exactly 10% of the subtotal, shipping is 5.00 when the subtotal is
strictly below 50.00 and 0.00 otherwise, and the total is the sum of the
three. -/
theorem C3_order_totals (s : State) (aid : Option Nat) (n : Nat) (nm : String)
    (s' : State) (o : Order) (s2 : State) (items : List CartItem) (n2 : Nat)
    (nm2 : String) (s2' : State) (o2 : Order) :
    (checkout s aid n nm = (s', Except.ok o) →
      o.subtotal = (o.items.map OrderItem.subtotal).sum ∧
      o.tax = o.subtotal * ((10 : ℚ) / 100) ∧
      o.shippingCost = (if o.subtotal < 50 then (5 : ℚ) else 0) ∧
      o.total = o.subtotal + o.tax + o.shippingCost) ∧
    (guestCheckout s2 items n2 nm2 = (s2', Except.ok o2) →
      o2.subtotal = (o2.items.map OrderItem.subtotal).sum ∧
      o2.tax = o2.subtotal * ((10 : ℚ) / 100) ∧
      o2.shippingCost = (if o2.subtotal < 50 then (5 : ℚ) else 0) ∧
      o2.total = o2.subtotal + o2.tax + o2.shippingCost) := by
  constructor
  · intro h
    obtain ⟨-, -, ⟨fn, ho⟩, -⟩ := checkout_ok h
    subst ho
    exact ⟨rfl, rfl, rfl, rfl⟩
  · intro h
    obtain ⟨-, -, ho, -⟩ := guestCheckout_ok h
    subst ho
    exact ⟨rfl, rfl, rfl, rfl⟩

/-- Witness for C3, the spec's Scenario B: a two-line cart with subtotal $40
yields tax $4.00, shipping $5.00 and total $49.00. -/
theorem C3_witness :
    (checkout c3State none 7 "n").2 = Except.ok c3Order ∧
    c3Order.subtotal = 40 ∧ c3Order.tax = 4 ∧ c3Order.shippingCost = 5 ∧
    c3Order.total = 49 := by
  have h1 : (checkout c3State none 7 "n").2 = Except.ok c3Order := by
    norm_num [checkout.eq_def, c3State, c3Order, stockViolation, findProduct,
      resolveShipping, checkoutItems, mkOrderItem, Order.calculateTotals,
      List.filterMap_cons]
  have hck : checkout c3State none 7 "n" =
      ((checkout c3State none 7 "n").1, Except.ok c3Order) := by
    rw [Prod.ext_iff]
    exact ⟨rfl, h1⟩
  have h := (C3_order_totals c3State none 7 "n" (checkout c3State none 7 "n").1 c3Order
      c3State [] 0 "" c3State c3Order).1 hck
  refine ⟨h1, h.1.trans ?_, h.2.1.trans ?_, h.2.2.1.trans ?_, h.2.2.2.trans ?_⟩
  · norm_num [c3Order]
  · norm_num [c3Order]
  · norm_num [c3Order]
  · norm_num [c3Order]

/-! ### Claim C1 -/

/-- C1 (amended): a stock violation on any line makes either checkout fail
with a stock error naming an offending product and its available stock, and
the state — orders, order lines, stock, sales counters — is exactly the
pre-attempt state; when every line passes stock validation AND the attempt is
otherwise well-formed (non-empty line list; a supplied saved-address id
resolves; for the guest path every product exists and is active and every
quantity is at least 1), the checkout succeeds.  For the guest path the
violation clause additionally assumes the earlier existence/activity checks
pass, since those fire first with their own error. -/
theorem C1_checkout_all_or_nothing (s : State) (aid : Option Nat) (n : Nat) (nm : String)
    (items : List CartItem) (n2 : Nat) (nm2 : String) :
    ((∃ it ∈ s.cart, ∃ p, findProduct s.products it.productId = some p ∧
        p.stock < it.quantity) →
      ∃ it ∈ s.cart, ∃ p, findProduct s.products it.productId = some p ∧
        p.stock < it.quantity ∧
        checkout s aid n nm = (s, Except.error (CheckoutError.stockError p.name p.stock))) ∧
    (s.cart ≠ [] →
      (∀ it ∈ s.cart, ∀ p, findProduct s.products it.productId = some p →
        it.quantity ≤ p.stock) →
      (∀ a, aid = some a → (findAddress s.addresses a).isSome) →
      ∃ o, (checkout s aid n nm).2 = Except.ok o) ∧
    ((∀ it ∈ items, 1 ≤ it.quantity ∧
        ∃ p, findProduct s.products it.productId = some p ∧ p.isActive = true) →
      (∃ it ∈ items, ∃ p, findProduct s.products it.productId = some p ∧
        p.stock < it.quantity) →
      ∃ it ∈ items, ∃ p, findProduct s.products it.productId = some p ∧
        p.stock < it.quantity ∧
        guestCheckout s items n2 nm2 =
          (s, Except.error (GuestCheckoutError.stockError p.name p.stock))) ∧
    (items ≠ [] →
      (∀ it ∈ items, 1 ≤ it.quantity ∧
        ∃ p, findProduct s.products it.productId = some p ∧ p.isActive = true ∧
          it.quantity ≤ p.stock) →
      ∃ o, (guestCheckout s items n2 nm2).2 = Except.ok o) := by
  refine ⟨?_, ?_, ?_, ?_⟩
  · intro hv
    obtain ⟨it, hit, p, hp, hlt, hs⟩ := stockViolation_of_violation hv
    refine ⟨it, hit, p, hp, hlt, ?_⟩
    have hne : ¬ s.cart.isEmpty := by
      cases hc : s.cart with
      | nil => rw [hc] at hit; cases hit
      | cons a l => simp [hc]
    rw [checkout.eq_def, if_neg hne, hs]
  · intro hne hok haddr
    exact checkout_succeeds n nm hne hok haddr
  · intro hwf hv
    obtain ⟨it, hit, p, hp, hlt, hgv⟩ := guestValidateItems_stock_violation hwf hv
    refine ⟨it, hit, p, hp, hlt, ?_⟩
    have hne : ¬ items.isEmpty := by
      cases hc : items with
      | nil => rw [hc] at hit; cases hit
      | cons a l => simp [hc]
    rw [guestCheckout.eq_def, if_neg hne, hgv]
  · intro hne hok
    exact guestCheckout_succeeds n2 nm2 hne hok

/-- Counterexample for C1 as stated: on an empty cart every line vacuously
satisfies quantity ≤ stock, yet the authenticated checkout does not succeed —
it fails with the empty-cart error. -/
theorem C1_counterexample :
    (∀ it ∈ c1EmptyState.cart, ∀ p,
      findProduct c1EmptyState.products it.productId = some p → it.quantity ≤ p.stock) ∧
    checkout c1EmptyState none 1 "n" = (c1EmptyState, Except.error CheckoutError.emptyCart) := by
  constructor
  · intro it hit; cases hit
  · rfl

/-- Witness for C1: requesting 3 units with stock 2 fails with the stock error
naming the product and its stock, leaving the state unchanged; requesting 2
units with stock 2 succeeds. -/
theorem C1_witness :
    checkout c1ViolState none 1 "n" =
      (c1ViolState, Except.error (CheckoutError.stockError "P" 2)) ∧
    (checkout c1OkState none 2 "n").2.map (fun _ => ()) = Except.ok () := by
  constructor
  · obtain ⟨it, hit, p, hp, hlt, heq⟩ :=
      (C1_checkout_all_or_nothing c1ViolState none 1 "n" ([] : List CartItem) 0 "").1
        ⟨⟨1, 3⟩, List.mem_singleton.mpr rfl,
          { pid := 1, name := "P", price := 5, stock := 2, salesCount := 0,
            isActive := true, vendorApproved := true }, rfl, by decide⟩
    cases hit with
    | head =>
      have hp2 : findProduct c1ViolState.products (CartItem.mk 1 3).productId =
          some { pid := 1, name := "P", price := 5, stock := 2, salesCount := 0,
                 isActive := true, vendorApproved := true } := rfl
      rw [hp2] at hp
      injection hp with hp
      rw [← hp] at heq
      exact heq
    | tail _ h2 => cases h2
  · obtain ⟨o, ho⟩ := (C1_checkout_all_or_nothing c1OkState none 2 "n"
      ([] : List CartItem) 0 "").2.1 (by decide)
      (by
        intro it hit p hp
        cases hit with
        | head =>
          have hp2 : findProduct c1OkState.products (CartItem.mk 1 2).productId =
              some { pid := 1, name := "P", price := 5, stock := 2, salesCount := 0,
                     isActive := true, vendorApproved := true } := rfl
          rw [hp2] at hp
          injection hp with hp
          rw [← hp]
        | tail _ h2 => cases h2)
      (fun a ha => nomatch ha)
    rw [ho]
    rfl

/-! ### Claim C5 -/

/-- C5 (amended): customer cancellation respects the spec's state machine —
it succeeds only from `pending` and moves the order to `cancelled`, an
allowed edge; the admin status update enforces no transition discipline: it
sets any requested status regardless of the current one. -/
theorem C5_status_transitions (s : State) (n : Nat) (st : OrderStatus)
    (s1 : State) (o1 : Order) (s2 : State) (o2 : Order) :
    (cancelOrder s n = (s1, Except.ok o1) →
      (findOrder s.orders n).map Order.status = some OrderStatus.pending ∧
      o1.status = OrderStatus.cancelled ∧
      allowedEdge OrderStatus.pending OrderStatus.cancelled = true) ∧
    (adminUpdateStatus s n st = (s2, Except.ok o2) → o2.status = st) := by
  constructor
  · intro h
    obtain ⟨o, hfind, hpend, ho1, -⟩ := cancelOrder_ok h
    refine ⟨by rw [hfind]; simp [hpend], ?_, rfl⟩
    rw [ho1]
  · intro h
    obtain ⟨o, hfind, ho2, -⟩ := adminUpdateStatus_ok h
    rw [ho2]

/-- Counterexample for C5: the admin endpoint moves a delivered order back to
pending — a (delivered, pending) transition, which is not an edge of the
claimed state machine. -/
theorem C5_counterexample :
    (findOrder c5DeliveredState.orders 1).map Order.status = some OrderStatus.delivered ∧
    (adminUpdateStatus c5DeliveredState 1 OrderStatus.pending).2 =
      Except.ok { orderNumber := 1, status := OrderStatus.pending, items := [],
                  subtotal := 0, shippingCost := 0, tax := 0, total := 0,
                  shippingFullName := "g" } ∧
    allowedEdge OrderStatus.delivered OrderStatus.pending = false := by
  exact ⟨rfl, rfl, rfl⟩

/-- Witness for C5: cancelling a pending order yields status cancelled, and
an admin update to shipped yields status shipped. -/
theorem C5_witness :
    (cancelOrder c5PendingState 2).2.map Order.status = Except.ok OrderStatus.cancelled ∧
    (adminUpdateStatus c5DeliveredState 1 OrderStatus.shipped).2.map Order.status =
      Except.ok OrderStatus.shipped := by
  have hcan : cancelOrder c5PendingState 2 =
      ((cancelOrder c5PendingState 2).1, Except.ok c5CancelledOrder) := by
    rw [Prod.ext_iff]; exact ⟨rfl, rfl⟩
  have hadm : adminUpdateStatus c5DeliveredState 1 OrderStatus.shipped =
      ((adminUpdateStatus c5DeliveredState 1 OrderStatus.shipped).1,
       Except.ok c5ShippedOrder) := by
    rw [Prod.ext_iff]; exact ⟨rfl, rfl⟩
  have h := C5_status_transitions c5PendingState 2 OrderStatus.shipped
    (cancelOrder c5PendingState 2).1 c5CancelledOrder
    (adminUpdateStatus c5DeliveredState 1 OrderStatus.shipped).1 c5ShippedOrder
  have h2 := C5_status_transitions c5DeliveredState 1 OrderStatus.shipped
    (cancelOrder c5DeliveredState 1).1 c5CancelledOrder
    (adminUpdateStatus c5DeliveredState 1 OrderStatus.shipped).1 c5ShippedOrder
  obtain ⟨-, hcstat, -⟩ := h.1 hcan
  have hsstat := h2.2 hadm
  constructor
  · have he : (cancelOrder c5PendingState 2).2 = Except.ok c5CancelledOrder := rfl
    rw [he]
    show Except.ok c5CancelledOrder.status = _
    exact congrArg Except.ok hcstat
  · have he : (adminUpdateStatus c5DeliveredState 1 OrderStatus.shipped).2 =
        Except.ok c5ShippedOrder := rfl
    rw [he]
    show Except.ok c5ShippedOrder.status = _
    exact congrArg Except.ok hsstat

/-! ### Claim C6 -/

/-- C6: adding a product that is already in the cart fails with a stock error
reporting the available stock whenever the combined (existing + requested)
quantity exceeds the current stock, leaving the whole state — in particular
the cart line's quantity — unchanged; otherwise the line's quantity becomes
the combined quantity. -/
theorem C6_add_to_cart_combined (s : State) (pid : Nat) (q : Int) (p : Product)
    (item : CartItem)
    (hp : findProduct s.products pid = some p)
    (hitem : findCartItem s.cart pid = some item)
    (hact : p.isActive = true) (happ : p.vendorApproved = true)
    (hq : 1 ≤ q) (hq0 : 0 ≤ item.quantity) :
    (p.stock < item.quantity + q →
      ∃ e, addToCart s pid q = (s, Except.error e) ∧
        (e = CartError.stockInsufficient p.stock ∨
         e = CartError.combinedExceedsStock p.stock item.quantity)) ∧
    (item.quantity + q ≤ p.stock →
      (addToCart s pid q).2 = Except.ok () ∧
      findCartItem (addToCart s pid q).1.cart pid =
        some { item with quantity := item.quantity + q }) := by
  constructor
  · intro hover
    by_cases hser : p.stock < q
    · refine ⟨CartError.stockInsufficient p.stock, ?_, Or.inl rfl⟩
      simp [addToCart, hp, hact, happ, hser, show ¬ q < 1 by omega]
    · refine ⟨CartError.combinedExceedsStock p.stock item.quantity, ?_, Or.inr rfl⟩
      simp [addToCart, hp, hact, happ, hser, hitem, hover, show ¬ q < 1 by omega]
  · intro hfit
    have heq : addToCart s pid q =
        ({ s with cart := mapCartItem s.cart pid fun it =>
            { it with quantity := saveQuantity (item.quantity + q) p.stock } },
         Except.ok ()) := by
      simp [addToCart, hp, hact, happ, hitem, show ¬ q < 1 by omega,
        show ¬ p.stock < q by omega, show ¬ p.stock < item.quantity + q by omega]
    rw [heq]
    refine ⟨rfl, ?_⟩
    show findCartItem (mapCartItem s.cart pid _) pid = _
    rw [findCartItem_mapCartItem_self
      (f := fun it => { it with quantity := saveQuantity (item.quantity + q) p.stock })
      (fun _ => rfl), hitem]
    simp only [Option.map_some']
    rw [saveQuantity_eq_of_bounds (by omega) hfit]

/-- Witness for C6, the spec's Scenario A: with stock 5 and quantity 3 in the
cart, adding 3 more fails with the stock error carrying stock 5 and cart
quantity 3 and the cart still holds quantity 3; adding 2 more succeeds and
the line becomes quantity 5. -/
theorem C6_witness :
    addToCart c6State 1 3 =
      (c6State, Except.error (CartError.combinedExceedsStock 5 3)) ∧
    findCartItem (addToCart c6State 1 3).1.cart 1 = some ⟨1, 3⟩ ∧
    findCartItem (addToCart c6State 1 2).1.cart 1 = some ⟨1, 5⟩ := by
  have h := C6_add_to_cart_combined c6State 1 3
    { pid := 1, name := "P", price := 5, stock := 5, salesCount := 0,
      isActive := true, vendorApproved := true } ⟨1, 3⟩
    rfl rfl rfl rfl (by decide) (by decide)
  obtain ⟨e, he, hcases⟩ := h.1 (by decide)
  have h2 := C6_add_to_cart_combined c6State 1 2
    { pid := 1, name := "P", price := 5, stock := 5, salesCount := 0,
      isActive := true, vendorApproved := true } ⟨1, 3⟩
    rfl rfl rfl rfl (by decide) (by decide)
  obtain ⟨-, hfit⟩ := h2.2 (by decide)
  rcases hcases with he2 | he2 <;> subst he2
  · have hval : addToCart c6State 1 3 =
        (c6State, Except.error (CartError.combinedExceedsStock 5 3)) := rfl
    rw [hval] at he
    simp at he
  · refine ⟨he, ?_, ?_⟩
    · rw [he]
      rfl
    · exact hfit

/-! ### Claim C8 -/

/-- Counterexample for C8: saving a cart line of quantity 3 for a product with
stock 0 stores quantity 0, which violates the claimed interval [1, stock]. -/
theorem C8_counterexample :
    saveQuantity 3 0 = 0 ∧ ¬ (1 ≤ saveQuantity 3 0) := by
  constructor
  · rfl
  · decide

/-- C8 (amended): `CartItem.save` clamps the saved quantity into [1, stock]
whenever the product's stock is at least 1; when the stock is 0 the saved
quantity is clamped to 0 (below the claimed lower bound 1). -/
theorem C8_save_clamps (q stock : Int) :
    (1 ≤ stock → 1 ≤ saveQuantity q stock ∧ saveQuantity q stock ≤ stock) ∧
    (stock = 0 → saveQuantity q stock = 0) := by
  constructor
  · intro h
    simp only [saveQuantity]
    omega
  · intro h
    simp only [saveQuantity]
    omega

/-- Witness for C8: quantity 9 against stock 5 is clamped into [1, 5], and
quantity 3 against stock 0 is stored as 0. -/
theorem C8_witness :
    1 ≤ saveQuantity 9 5 ∧ saveQuantity 9 5 ≤ 5 ∧ saveQuantity 3 0 = 0 := by
  have h1 := (C8_save_clamps 9 5).1 (by decide)
  have h2 := (C8_save_clamps 3 0).2 rfl
  exact ⟨h1.1, h1.2, h2⟩

/-! ### Claim C10 -/

/-- C10: the admin status update changes only the order's status and its
items' statuses (all set to the requested value); the product table, the
cart, the addresses, the other orders, and the order's number, shipping and
monetary fields are unchanged — in particular setting `cancelled` through
this endpoint restores no stock and changes no sales counter. -/
theorem C10_admin_update_frame (s : State) (n : Nat) (st : OrderStatus)
    (s' : State) (o' : Order)
    (h : adminUpdateStatus s n st = (s', Except.ok o')) :
    s'.products = s.products ∧ s'.cart = s.cart ∧ s'.addresses = s.addresses ∧
    ∃ o, findOrder s.orders n = some o ∧
      o'.orderNumber = o.orderNumber ∧ o'.subtotal = o.subtotal ∧
      o'.tax = o.tax ∧ o'.shippingCost = o.shippingCost ∧ o'.total = o.total ∧
      o'.shippingFullName = o.shippingFullName ∧ o'.status = st ∧
      o'.items = o.items.map (fun it => { it with status := st }) ∧
      s'.orders = s.orders.map fun x => if x.orderNumber = n then o' else x := by
  obtain ⟨o, hfind, ho', hs'⟩ := adminUpdateStatus_ok h
  subst ho'
  subst hs'
  exact ⟨rfl, rfl, rfl, o, hfind, rfl, rfl, rfl, rfl, rfl, rfl, rfl, rfl, rfl⟩

/-- Witness for C10: cancelling an order through the admin endpoint leaves
the product table (stock 7, sales 3) untouched while the order and its item
read cancelled. -/
theorem C10_witness :
    (adminUpdateStatus c10State 4 OrderStatus.cancelled).1.products = c10State.products ∧
    (adminUpdateStatus c10State 4 OrderStatus.cancelled).2.map Order.status =
      Except.ok OrderStatus.cancelled := by
  have heq : adminUpdateStatus c10State 4 OrderStatus.cancelled =
      ((adminUpdateStatus c10State 4 OrderStatus.cancelled).1,
       Except.ok c10CancelledOrder) := by
    rw [Prod.ext_iff]; exact ⟨rfl, rfl⟩
  have h := C10_admin_update_frame c10State 4 OrderStatus.cancelled
    (adminUpdateStatus c10State 4 OrderStatus.cancelled).1 c10CancelledOrder heq
  obtain ⟨o, -, -, -, -, -, -, -, hstat, -, -⟩ := h.2.2.2
  refine ⟨h.1, ?_⟩
  have he : (adminUpdateStatus c10State 4 OrderStatus.cancelled).2 =
      Except.ok c10CancelledOrder := rfl
  rw [he]
  show Except.ok c10CancelledOrder.status = _
  exact congrArg Except.ok hstat

/-! ### Claim C7 -/

theorem mergeLine_count (acc : State × Nat × List MergeWarning) (line : CartItem) :
    (mergeLine acc line).2.1 + ((mergeLine acc line).2.2).length =
      acc.2.1 + acc.2.2.length + 1 := by
  obtain ⟨s, c, w⟩ := acc
  simp only [mergeLine]
  cases hf : findProduct s.products line.productId with
  | none => simp; omega
  | some p =>
    by_cases hav : p.isActive = false ∨ p.vendorApproved = false
    · simp [hav]; omega
    · by_cases hq : min line.quantity p.stock ≤ 0
      · simp [hav, hq]; omega
      · cases hc : findCartItem s.cart line.productId <;> simp [hav, hq, hc] <;> omega

theorem mergeLine_frame (acc : State × Nat × List MergeWarning) (line : CartItem) :
    (mergeLine acc line).1.products = acc.1.products ∧
    (mergeLine acc line).1.orders = acc.1.orders := by
  obtain ⟨s, c, w⟩ := acc
  simp only [mergeLine]
  cases hf : findProduct s.products line.productId with
  | none => exact ⟨rfl, rfl⟩
  | some p =>
    by_cases hav : p.isActive = false ∨ p.vendorApproved = false
    · simp [hav]
    · by_cases hq : min line.quantity p.stock ≤ 0
      · simp [hav, hq]
      · cases hc : findCartItem s.cart line.productId <;> simp [hav, hq, hc]

theorem mergeFold_count (items : List CartItem) (acc : State × Nat × List MergeWarning) :
    (items.foldl mergeLine acc).2.1 + ((items.foldl mergeLine acc).2.2).length =
      acc.2.1 + acc.2.2.length + items.length := by
  induction items generalizing acc with
  | nil => simp
  | cons l rest ih =>
    rw [List.foldl_cons, ih (mergeLine acc l), mergeLine_count]
    simp only [List.length_cons]
    omega

theorem mergeFold_frame (items : List CartItem) (acc : State × Nat × List MergeWarning) :
    (items.foldl mergeLine acc).1.products = acc.1.products ∧
    (items.foldl mergeLine acc).1.orders = acc.1.orders := by
  induction items generalizing acc with
  | nil => exact ⟨rfl, rfl⟩
  | cons l rest ih =>
    rw [List.foldl_cons]
    obtain ⟨h1, h2⟩ := ih (mergeLine acc l)
    obtain ⟨h3, h4⟩ := mergeLine_frame acc l
    exact ⟨h1.trans h3, h2.trans h4⟩

/-- C7 (amended): guest-cart merge has partial-success semantics.  A line
whose product is missing, inactive/unapproved, or out of stock (clamped
quantity ≤ 0) is skipped with exactly one warning; every other line is merged
with quantity min(requested, stock) — combined with any existing cart
quantity and still capped at stock.  Over a whole call, merged count plus
warning count equals the number of lines (the call never fails as a whole),
and only the cart is written: products and orders are untouched. -/
theorem C7_merge_partial_success (s : State) (count : Nat) (warns : List MergeWarning)
    (line : CartItem) (items : List CartItem) :
    (findProduct s.products line.productId = none →
      mergeLine (s, count, warns) line =
        (s, count, warns ++ [MergeWarning.notFound line.productId])) ∧
    (∀ p, findProduct s.products line.productId = some p →
      (p.isActive = false ∨ p.vendorApproved = false) →
      mergeLine (s, count, warns) line =
        (s, count, warns ++ [MergeWarning.unavailable p.name])) ∧
    (∀ p, findProduct s.products line.productId = some p →
      p.isActive = true → p.vendorApproved = true → min line.quantity p.stock ≤ 0 →
      mergeLine (s, count, warns) line =
        (s, count, warns ++ [MergeWarning.outOfStock p.name])) ∧
    (∀ p, findProduct s.products line.productId = some p →
      p.isActive = true → p.vendorApproved = true → 0 < min line.quantity p.stock →
      findCartItem s.cart line.productId = none →
      mergeLine (s, count, warns) line =
        ({ s with cart := s.cart ++ [⟨line.productId, min line.quantity p.stock⟩] },
         count + 1, warns)) ∧
    (∀ p item, findProduct s.products line.productId = some p →
      p.isActive = true → p.vendorApproved = true → 0 < min line.quantity p.stock →
      findCartItem s.cart line.productId = some item → 0 ≤ item.quantity →
      (mergeLine (s, count, warns) line).2 = (count + 1, warns) ∧
      findCartItem (mergeLine (s, count, warns) line).1.cart line.productId =
        some ⟨line.productId,
          min (item.quantity + min line.quantity p.stock) p.stock⟩) ∧
    (mergeCart s items).2.1 + ((mergeCart s items).2.2).length = items.length ∧
    (mergeCart s items).1.products = s.products ∧
    (mergeCart s items).1.orders = s.orders := by
  refine ⟨?_, ?_, ?_, ?_, ?_, ?_, ?_, ?_⟩
  · intro hf
    simp [mergeLine, hf]
  · intro p hf hav
    simp [mergeLine, hf, hav]
  · intro p hf hact happ hq
    simp [mergeLine, hf, hact, happ, hq]
  · intro p hf hact happ hq hcart
    have hsq : saveQuantity (min line.quantity p.stock) p.stock =
        min line.quantity p.stock :=
      saveQuantity_eq_of_bounds (by omega) (by omega)
    simp [mergeLine, hf, hact, happ, hcart, hsq,
      show ¬ min line.quantity p.stock ≤ 0 by omega]
  · intro p item hf hact happ hq hcart hq0
    have hsq : saveQuantity (min (item.quantity + min line.quantity p.stock) p.stock)
        p.stock = min (item.quantity + min line.quantity p.stock) p.stock :=
      saveQuantity_eq_of_bounds (by omega) (by omega)
    have heq : mergeLine (s, count, warns) line =
        ({ s with cart := mapCartItem s.cart line.productId (fun it =>
            { it with quantity := saveQuantity (min (item.quantity + min line.quantity p.stock) p.stock) p.stock }) },
         count + 1, warns) := by
      simp [mergeLine, hf, hact, happ, hcart,
        show ¬ min line.quantity p.stock ≤ 0 by omega]
    rw [heq]
    refine ⟨rfl, ?_⟩
    show findCartItem (mapCartItem s.cart line.productId _) line.productId = _
    rw [findCartItem_mapCartItem_self
      (f := fun it =>
        { it with quantity := saveQuantity (min (item.quantity + min line.quantity p.stock) p.stock) p.stock })
      (fun _ => rfl), hcart]
    simp only [Option.map_some']
    rw [hsq]
    have hpid := findCartItem_pid hcart
    cases item
    simp only [] at hpid
    simp [hpid]
  · simpa using mergeFold_count items (s, 0, [])
  · exact (mergeFold_frame items (s, 0, [])).1
  · exact (mergeFold_frame items (s, 0, [])).2

/-- Counterexample for C7 as stated: a guest line for an active, approved
product that is out of stock is not merged with a clamped quantity — it is
skipped with a warning (merged count 0, one warning, cart unchanged). -/
theorem C7_counterexample :
    (findProduct c7OutOfStockState.products 1).map
      (fun p => (p.isActive, p.vendorApproved)) = some (true, true) ∧
    mergeCart c7OutOfStockState [⟨1, 1⟩] =
      (c7OutOfStockState, 0, [MergeWarning.outOfStock "P"]) := by
  exact ⟨rfl, rfl⟩

/-- Witness for C7, the spec's Scenario C: merging [{P1, qty 10}] with
P1.stock = 4 creates a cart line with quantity 4, one merged line and no
warnings. -/
theorem C7_witness :
    mergeCart c7MergeState [⟨1, 10⟩] =
      ({ c7MergeState with cart := [⟨1, 4⟩] }, 1, ([] : List MergeWarning)) := by
  have h := (C7_merge_partial_success c7MergeState 0 [] ⟨1, 10⟩ [⟨1, 10⟩]).2.2.2.1
    { pid := 1, name := "P1", price := 5, stock := 4, salesCount := 0,
      isActive := true, vendorApproved := true } rfl rfl rfl (by decide) rfl
  show List.foldl mergeLine (c7MergeState, 0, []) [⟨1, 10⟩] = _
  rw [List.foldl_cons, List.foldl_nil, h]
  rfl

/-! ### Claim C9 -/

theorem countAid_map_of_preserve {rows : List Address} {f : Address → Address}
    (hf : ∀ r, (f r).aid = r.aid) (x : Nat) :
    countAid (rows.map f) x = countAid rows x := by
  induction rows with
  | nil => rfl
  | cons r rest ih =>
    simp only [List.map_cons, countAid, ih, hf r]

theorem countAid_append (rows : List Address) (a : Address) (x : Nat) :
    countAid (rows ++ [a]) x = countAid rows x + (if a.aid = x then 1 else 0) := by
  induction rows with
  | nil => simp [countAid]
  | cons r rest ih =>
    show (if r.aid = x then 1 else 0) + countAid (rest ++ [a]) x = _
    rw [ih]
    show _ = (if r.aid = x then 1 else 0) + countAid rest x + _
    omega

theorem countAid_eq_zero_of_not_any {rows : List Address} {x : Nat}
    (h : (rows.any fun r => r.aid == x) = false) : countAid rows x = 0 := by
  induction rows with
  | nil => rfl
  | cons r rest ih =>
    simp only [List.any_cons, Bool.or_eq_false_iff] at h
    have hr : ¬ r.aid = x := by simpa using h.1
    simp only [countAid, ih h.2, if_neg hr]

theorem countAid_clearDefaults (rows : List Address) (a : Address) (x : Nat) :
    countAid (clearDefaults rows a) x = countAid rows x :=
  countAid_map_of_preserve (fun r => by by_cases h : r.userId = a.userId ∧
    r.addrType = a.addrType ∧ r.isDefault = true <;> simp [h]) x

theorem countDefaults_clearDefaults_self (rows : List Address) (a : Address) :
    countDefaults (clearDefaults rows a) a.userId a.addrType = 0 := by
  induction rows with
  | nil => rfl
  | cons r rest ih =>
    simp only [clearDefaults, List.map_cons, countDefaults] at ih ⊢
    rw [ih]
    by_cases hc : r.userId = a.userId ∧ r.addrType = a.addrType ∧ r.isDefault = true
    · simp only [if_pos hc]
      simp
    · simp only [if_neg hc]

theorem countDefaults_clearDefaults_le (rows : List Address) (a : Address)
    (u : Nat) (t : AddressType) :
    countDefaults (clearDefaults rows a) u t ≤ countDefaults rows u t := by
  induction rows with
  | nil => exact Nat.le_refl 0
  | cons r rest ih =>
    simp only [clearDefaults, List.map_cons, countDefaults] at ih ⊢
    refine Nat.add_le_add ?_ ih
    by_cases hc : r.userId = a.userId ∧ r.addrType = a.addrType ∧ r.isDefault = true
    · simp only [if_pos hc]
      simp
    · simp only [if_neg hc]
      exact Nat.le_refl _

theorem countDefaults_replace_le (rows : List Address) (a : Address)
    (u : Nat) (t : AddressType) :
    countDefaults (rows.map fun r => if r.aid = a.aid then a else r) u t ≤
      countDefaults rows u t + countAid rows a.aid := by
  induction rows with
  | nil => exact Nat.le_refl 0
  | cons r rest ih =>
    simp only [List.map_cons, countDefaults, countAid]
    by_cases hr : r.aid = a.aid
    · simp only [if_pos hr]
      have h1 : (if a.userId = u ∧ a.addrType = t ∧ a.isDefault = true then 1 else 0) ≤ 1 := by
        split <;> omega
      omega
    · simp only [if_neg hr]
      omega

theorem countDefaults_replace_le_of_not_match (rows : List Address) (a : Address)
    (u : Nat) (t : AddressType)
    (ha : ¬ (a.userId = u ∧ a.addrType = t ∧ a.isDefault = true)) :
    countDefaults (rows.map fun r => if r.aid = a.aid then a else r) u t ≤
      countDefaults rows u t := by
  induction rows with
  | nil => exact Nat.le_refl 0
  | cons r rest ih =>
    simp only [List.map_cons, countDefaults]
    by_cases hr : r.aid = a.aid
    · simp only [if_pos hr, if_neg ha]
      omega
    · simp only [if_neg hr]
      omega

theorem countDefaults_append (rows : List Address) (a : Address)
    (u : Nat) (t : AddressType) :
    countDefaults (rows ++ [a]) u t = countDefaults rows u t +
      (if a.userId = u ∧ a.addrType = t ∧ a.isDefault = true then 1 else 0) := by
  induction rows with
  | nil => simp [countDefaults]
  | cons r rest ih =>
    show (if r.userId = u ∧ r.addrType = t ∧ r.isDefault = true then 1 else 0) +
      countDefaults (rest ++ [a]) u t = _
    rw [ih]
    show _ = (if r.userId = u ∧ r.addrType = t ∧ r.isDefault = true then 1 else 0) +
      countDefaults rest u t + _
    omega

theorem upsert_aid_le_one (cleared : List Address) (a : Address) (x : Nat)
    (hc : countAid cleared x ≤ 1) :
    countAid (if cleared.any fun r => r.aid == a.aid then
        cleared.map fun r => if r.aid = a.aid then a else r
      else cleared ++ [a]) x ≤ 1 := by
  split
  · rw [countAid_map_of_preserve (f := fun r => if r.aid = a.aid then a else r)
      (fun r => by by_cases h : r.aid = a.aid <;> simp [h])]
    exact hc
  · rename_i hany
    rw [countAid_append]
    by_cases hx : a.aid = x
    · subst hx
      have h0 : countAid cleared a.aid = 0 :=
        countAid_eq_zero_of_not_any (by simpa using hany)
      simp [h0]
    · rw [if_neg hx]
      omega

theorem upsert_defaults_le_one (cleared : List Address) (a : Address)
    (u : Nat) (t : AddressType)
    (h : countDefaults cleared u t +
      (if a.userId = u ∧ a.addrType = t ∧ a.isDefault = true then 1 else 0) ≤ 1)
    (haid : countAid cleared a.aid ≤ 1) :
    countDefaults (if cleared.any fun r => r.aid == a.aid then
        cleared.map fun r => if r.aid = a.aid then a else r
      else cleared ++ [a]) u t ≤ 1 := by
  split
  · by_cases hmatch : a.userId = u ∧ a.addrType = t ∧ a.isDefault = true
    · rw [if_pos hmatch] at h
      have h1 := countDefaults_replace_le cleared a u t
      omega
    · have h1 := countDefaults_replace_le_of_not_match cleared a u t hmatch
      rw [if_neg hmatch] at h
      omega
  · rw [countDefaults_append]
    exact h

theorem addressSave_aidUnique {rows : List Address} (a : Address)
    (hu : aidUnique rows) : aidUnique (addressSave rows a) := by
  intro x
  simp only [addressSave]
  split
  · refine upsert_aid_le_one (clearDefaults rows a) a x ?_
    rw [countAid_clearDefaults]
    exact hu x
  · exact upsert_aid_le_one rows a x (hu x)

theorem addressSave_atMostOne {rows : List Address} (a : Address)
    (hu : aidUnique rows) (hd : atMostOneDefault rows) :
    atMostOneDefault (addressSave rows a) := by
  intro u t
  simp only [addressSave]
  split
  · rename_i hdef
    refine upsert_defaults_le_one (clearDefaults rows a) a u t ?_ ?_
    · by_cases hmatch : a.userId = u ∧ a.addrType = t ∧ a.isDefault = true
      · rw [if_pos hmatch]
        obtain ⟨h1, h2, -⟩ := hmatch
        subst h1
        subst h2
        rw [countDefaults_clearDefaults_self]
      · rw [if_neg hmatch]
        have h1 := countDefaults_clearDefaults_le rows a u t
        have h2 := hd u t
        omega
    · rw [countAid_clearDefaults]
      exact hu a.aid
  · rename_i hdef
    refine upsert_defaults_le_one rows a u t ?_ (hu a.aid)
    have hmatch : ¬ (a.userId = u ∧ a.addrType = t ∧ a.isDefault = true) := by
      intro hh
      exact hdef hh.2.2
    rw [if_neg hmatch]
    have := hd u t
    omega

/-- C9: for every (user, address_type) pair, at most one stored address has
`is_default = true` after any sequence of `Address.save` calls, provided the
table starts with the invariant and has unique primary keys: saving a
default address first clears every other default of the same user and type. -/
theorem C9_one_default_per_user_type (rows : List Address) (saves : List Address)
    (hu : aidUnique rows) (hd : atMostOneDefault rows) :
    atMostOneDefault (runSaves rows saves) := by
  induction saves generalizing rows with
  | nil => exact hd
  | cons a rest ih =>
    exact ih (addressSave rows a) (addressSave_aidUnique a hu)
      (addressSave_atMostOne a hu hd)

/-- Witness for C9: saving two default shipping addresses for user 7 in
sequence leaves only the second marked default. -/
theorem C9_witness :
    runSaves [] c9Saves =
      [{ aid := 1, userId := 7, addrType := AddressType.shipping, isDefault := false },
       { aid := 2, userId := 7, addrType := AddressType.shipping, isDefault := true }] ∧
    countDefaults (runSaves [] c9Saves) 7 AddressType.shipping ≤ 1 := by
  refine ⟨by decide, ?_⟩
  exact C9_one_default_per_user_type [] c9Saves
    (fun x => by have h : countAid ([] : List Address) x = 0 := rfl; omega)
    (fun u t => by have h : countDefaults ([] : List Address) u t = 0 := rfl; omega)
    7 AddressType.shipping

/-! ### Claim C4 -/

theorem findOrder_mem {os : List Order} {n : Nat} {o : Order}
    (h : findOrder os n = some o) : o ∈ os := by
  induction os with
  | nil => simp [findOrder] at h
  | cons q os ih =>
    by_cases hq : q.orderNumber = n
    · simp [findOrder, hq] at h
      simp [h]
    · simp [findOrder, hq] at h
      exact List.mem_cons_of_mem _ (ih h)

theorem cartNonneg_mapCartItem {cart : List CartItem} {pid : Nat} {f : CartItem → CartItem}
    (hc : cartNonneg cart) (hf : ∀ it ∈ cart, 0 ≤ (f it).quantity) :
    cartNonneg (mapCartItem cart pid f) := by
  intro it hit
  obtain ⟨jt, hjt, hj⟩ := List.mem_map.mp hit
  by_cases h : jt.productId = pid
  · rw [if_pos h] at hj
    rw [← hj]
    exact hf jt hjt
  · rw [if_neg h] at hj
    rw [← hj]
    exact hc jt hjt

theorem cartNonneg_append {cart : List CartItem} {it : CartItem}
    (hc : cartNonneg cart) (hq : 0 ≤ it.quantity) : cartNonneg (cart ++ [it]) := by
  intro jt hjt
  rcases List.mem_append.mp hjt with h | h
  · exact hc jt h
  · rw [List.mem_singleton] at h
    rw [h]
    exact hq

theorem ordersNonneg_append {os : List Order} {o : Order}
    (ho : ordersNonneg os) (hno : ∀ it ∈ o.items, 0 ≤ it.quantity) :
    ordersNonneg (os ++ [o]) := by
  intro o2 h2
  rcases List.mem_append.mp h2 with h | h
  · exact ho o2 h
  · rw [List.mem_singleton] at h
    rw [h]
    exact hno

theorem ordersNonneg_statusMap {os : List Order} {n : Nat} {o' : Order}
    (ho : ordersNonneg os) (ho' : ∀ it ∈ o'.items, 0 ≤ it.quantity) :
    ordersNonneg (os.map fun x => if x.orderNumber = n then o' else x) := by
  intro o2 h2 it hit
  obtain ⟨x, hx, hxo⟩ := List.mem_map.mp h2
  by_cases hxx : x.orderNumber = n
  · rw [if_pos hxx] at hxo
    rw [← hxo] at hit
    exact ho' it hit
  · rw [if_neg hxx] at hxo
    rw [← hxo] at hit
    exact ho x hx it hit

theorem itemsNonneg_statusMap {items : List OrderItem} {st : OrderStatus}
    (h : ∀ it ∈ items, 0 ≤ it.quantity) :
    ∀ it ∈ items.map (fun x => { x with status := st }), 0 ≤ it.quantity := by
  intro it hit
  obtain ⟨x, hx, hxo⟩ := List.mem_map.mp hit
  rw [← hxo]
  exact h x hx

theorem addToCart_WF {s : State} (pid : Nat) (q : Int) (h : StateWF s) :
    StateWF (addToCart s pid q).1 := by
  obtain ⟨hp, hc, ho⟩ := h
  rw [addToCart.eq_def]
  split
  · exact ⟨hp, hc, ho⟩
  · split
    · exact ⟨hp, hc, ho⟩
    · rename_i p hfp
      split
      · exact ⟨hp, hc, ho⟩
      · split
        · exact ⟨hp, hc, ho⟩
        · split
          · exact ⟨hp, hc, ho⟩
          · split
            · rename_i item hitem
              by_cases hlt : p.stock < item.quantity + q
              · simp only [if_pos hlt]
                exact ⟨hp, hc, ho⟩
              · simp only [if_neg hlt]
                refine ⟨hp, ?_, ho⟩
                refine cartNonneg_mapCartItem hc fun it hit => ?_
                exact saveQuantity_nonneg (hp p (findProduct_mem hfp))
            · refine ⟨hp, ?_, ho⟩
              refine cartNonneg_append hc ?_
              exact saveQuantity_nonneg (hp p (findProduct_mem hfp))

theorem updateCartItem_WF {s : State} (pid : Nat) (q : Int) (h : StateWF s) :
    StateWF (updateCartItem s pid q).1 := by
  obtain ⟨hp, hc, ho⟩ := h
  rw [updateCartItem.eq_def]
  split
  · exact ⟨hp, hc, ho⟩
  · split
    · exact ⟨hp, hc, ho⟩
    · split
      · exact ⟨hp, hc, ho⟩
      · rename_i p hfp
        split
        · exact ⟨hp, hc, ho⟩
        · refine ⟨hp, ?_, ho⟩
          refine cartNonneg_mapCartItem hc fun it hit => ?_
          exact saveQuantity_nonneg (hp p (findProduct_mem hfp))

theorem mergeLine_WF {acc : State × Nat × List MergeWarning} (line : CartItem)
    (h : StateWF acc.1) : StateWF (mergeLine acc line).1 := by
  obtain ⟨s, c, w⟩ := acc
  obtain ⟨hp, hc, ho⟩ := h
  simp only [mergeLine]
  split
  · exact ⟨hp, hc, ho⟩
  · rename_i p hfp
    split
    · exact ⟨hp, hc, ho⟩
    · split
      · exact ⟨hp, hc, ho⟩
      · split
        · refine ⟨hp, ?_, ho⟩
          refine cartNonneg_mapCartItem hc fun it hit => ?_
          exact saveQuantity_nonneg (hp p (findProduct_mem hfp))
        · refine ⟨hp, ?_, ho⟩
          refine cartNonneg_append hc ?_
          exact saveQuantity_nonneg (hp p (findProduct_mem hfp))

theorem mergeFold_WF {acc : State × Nat × List MergeWarning} (items : List CartItem)
    (h : StateWF acc.1) : StateWF (items.foldl mergeLine acc).1 := by
  induction items generalizing acc with
  | nil => exact h
  | cons l rest ih => exact ih (mergeLine_WF l h)

theorem checkoutItems_nonneg {ps : List Product} {lines : List CartItem}
    (h : ∀ it ∈ lines, 0 ≤ it.quantity) :
    ∀ oi ∈ checkoutItems ps lines, 0 ≤ oi.quantity := by
  intro oi hoi
  obtain ⟨it, hit, hq⟩ := checkoutItems_quantity hoi
  rw [hq]
  exact h it hit

theorem checkout_WF {s : State} (aid : Option Nat) (n : Nat) (nm : String)
    (h : StateWF s) : StateWF (checkout s aid n nm).1 := by
  obtain ⟨hp, hc, ho⟩ := h
  rw [checkout.eq_def]
  split
  · exact ⟨hp, hc, ho⟩
  · split
    · exact ⟨hp, hc, ho⟩
    · split
      · exact ⟨hp, hc, ho⟩
      · refine ⟨stocksNonneg_checkoutProducts hp, ?_, ?_⟩
        · intro it hit
          cases hit
        · refine ordersNonneg_append ho ?_
          exact checkoutItems_nonneg hc

theorem guestCheckout_WF {s : State} (items : List CartItem) (n : Nat) (nm : String)
    (h : StateWF s) : StateWF (guestCheckout s items n nm).1 := by
  obtain ⟨hp, hc, ho⟩ := h
  rw [guestCheckout.eq_def]
  split
  · exact ⟨hp, hc, ho⟩
  · split
    · exact ⟨hp, hc, ho⟩
    · rename_i hval
      refine ⟨stocksNonneg_checkoutProducts hp, hc, ordersNonneg_append ho ?_⟩
      refine checkoutItems_nonneg fun it hit => ?_
      have h1 := (guestValidateItems_none hval it hit).1
      omega

theorem cancelOrder_WF {s : State} (n : Nat) (h : StateWF s) :
    StateWF (cancelOrder s n).1 := by
  obtain ⟨hp, hc, ho⟩ := h
  rw [cancelOrder.eq_def]
  split
  · exact ⟨hp, hc, ho⟩
  · rename_i o hfind
    split
    · refine ⟨?_, hc, ?_⟩
      · exact stocksNonneg_restoreProducts hp (ho o (findOrder_mem hfind))
      · exact ordersNonneg_statusMap ho (itemsNonneg_statusMap (ho o (findOrder_mem hfind)))
    · exact ⟨hp, hc, ho⟩

theorem adminUpdateStatus_WF {s : State} (n : Nat) (st : OrderStatus) (h : StateWF s) :
    StateWF (adminUpdateStatus s n st).1 := by
  obtain ⟨hp, hc, ho⟩ := h
  rw [adminUpdateStatus.eq_def]
  split
  · exact ⟨hp, hc, ho⟩
  · rename_i o hfind
    refine ⟨hp, hc, ?_⟩
    exact ordersNonneg_statusMap ho (itemsNonneg_statusMap (ho o (findOrder_mem hfind)))

theorem step_WF {s : State} (op : Op) (h : StateWF s) : StateWF (step s op) := by
  cases op with
  | addItem pid q => exact addToCart_WF pid q h
  | updateItem pid q => exact updateCartItem_WF pid q h
  | merge items => exact mergeFold_WF items h
  | doCheckout aid n nm => exact checkout_WF aid n nm h
  | doGuestCheckout items n nm => exact guestCheckout_WF items n nm h
  | cancel n => exact cancelOrder_WF n h
  | adminSetStatus n st => exact adminUpdateStatus_WF n st h

theorem run_WF {s : State} (ops : List Op) (h : StateWF s) : StateWF (run s ops) := by
  induction ops generalizing s with
  | nil => exact h
  | cons op rest ih => exact ih (step_WF op h)

/-- C4: starting from any well-formed state (non-negative stocks and
quantities, as the schema's `PositiveIntegerField` columns require), every
product's stock is still non-negative after any sequence of add-to-cart,
cart-update, cart-merge, checkout (authenticated or guest), cancellation and
admin status-update operations: the checkout decrement clamps at zero and
cancellation only adds quantities back. -/
theorem C4_stock_never_negative (s : State) (ops : List Op) (h : StateWF s) :
    ∀ p ∈ (run s ops).products, 0 ≤ p.stock :=
  (run_WF ops h).1

/-- Witness for C4: checkout of 2 units of a stock-2 product, cancellation,
and a fresh add-to-cart leave the product at the non-negative stock 2. -/
theorem C4_witness :
    StateWF c4State ∧
    findProduct (run c4State c4Ops).products 1 =
      some { pid := 1, name := "P", price := 5, stock := 2, salesCount := 2,
             isActive := true, vendorApproved := true } ∧
    0 ≤ (2 : Int) := by
  have hwf : StateWF c4State := by
    refine ⟨fun p hp => ?_, fun it hit => ?_, fun o hmem => ?_⟩
    · cases hp with
      | head => decide
      | tail _ hh => cases hh
    · cases hit with
      | head => decide
      | tail _ hh => cases hh
    · cases hmem
  have hfind : findProduct (run c4State c4Ops).products 1 =
      some { pid := 1, name := "P", price := 5, stock := 2, salesCount := 2,
             isActive := true, vendorApproved := true } := rfl
  exact ⟨hwf, hfind,
    C4_stock_never_negative c4State c4Ops hwf _ (findProduct_mem hfind)⟩

end ECom